import Mathlib

/-!
# Token lifecycle of the Yandex Cloud client

A shallow embedding of `auth/iam_token_manager.go`, `errors/errors.go`, the
constructor of `client.go`, the request executor of `resources/abstract_resource.go`
and resource operations built on it.

* Time is a single timeline of nanoseconds (`Int`); `time.Time{}` is instant `0`.
  Clock readings are arguments of the operations that call `time.Now()`.
* The network is an argument: an `ExchangeOutcome` says what the calls made by
  one `GetIAMToken` produce.
* The mutex and the calls to the exchanger are recorded in an `Event` trace
  returned by the operations that lock or call out.
* Go's `(string, error)` is `String × Option Error`, `none` being `nil`.
-/

namespace YandexCloud

/-! ## Time -/

/-- Go `time.Duration`: a count of nanoseconds. -/
abbrev Duration := Int

/-- Go `time.Time` as nanoseconds on one timeline; the zero value `time.Time{}` is `0`. -/
abbrev Time := Int

def Second : Duration := 1000000000
def Minute : Duration := 60 * Second
def Hour : Duration := 60 * Minute

/-- Go `t.After(u)`: strictly later. -/
def After (t u : Time) : Bool := decide (u < t)

/-- Go `t.Before(u)`: strictly earlier. -/
def Before (t u : Time) : Bool := decide (t < u)

/-- Go `t.Add(d)`. -/
def Add (t : Time) (d : Duration) : Time := t + d

/-- Constant `tokenLifetime = 12 * time.Hour`. -/
def tokenLifetime : Duration := 12 * Hour

/-- Constant `tokenRefreshMargin = 5 * time.Minute`. -/
def tokenRefreshMargin : Duration := 5 * Minute

/-! ## Errors (`errors/errors.go`) -/

/-- An error value produced by a library (net/http, io, encoding/json), identified with the
text its `Error()` method renders. -/
structure Cause where
  text : String
  deriving DecidableEq, Repr

/-- Go `YandexCloudError`: a message and an optional wrapped error. -/
structure YandexCloudError where
  Message : String
  Err : Option Cause
  deriving DecidableEq, Repr

/-- Go `(*YandexCloudError).Error`. -/
def YandexCloudError.Error (e : YandexCloudError) : String :=
  match e.Err with
  | some err => e.Message ++ ": " ++ err.text
  | none => e.Message

/-- The three error types of the package, each embedding `YandexCloudError`. -/
inductive Error where
  | AuthenticationError (e : YandexCloudError)
  | APIError (e : YandexCloudError) (StatusCode : Int)
  | ValidationError (e : YandexCloudError)
  deriving DecidableEq, Repr

/-- The embedded `YandexCloudError`. -/
def Error.base : Error → YandexCloudError
  | .AuthenticationError e => e
  | .APIError e _ => e
  | .ValidationError e => e

/-- The promoted method `Error()` of the three error types. -/
def Error.errorText (e : Error) : String := e.base.Error

/-- Whether the value has type `*AuthenticationError`. -/
def Error.isAuthenticationError : Error → Bool
  | .AuthenticationError _ => true
  | _ => false

/-- Go `NewAuthenticationError`. -/
def NewAuthenticationError (message : String) (err : Option Cause) : Error :=
  .AuthenticationError { Message := message, Err := err }

/-- Go `NewAPIError`. -/
def NewAPIError (message : String) (statusCode : Int) (err : Option Cause) : Error :=
  .APIError { Message := message, Err := err } statusCode

/-- Go `NewValidationError`. -/
def NewValidationError (message : String) : Error :=
  .ValidationError { Message := message, Err := none }

/-! ## JSON documents as `encoding/json` reads them -/

/-- The syntax tree of a JSON document. Object members keep their order and duplicates. -/
inductive JSONValue where
  | null
  | bool (b : Bool)
  | number (literal : String)
  | string (s : String)
  | array (elems : List JSONValue)
  | object (members : List (String × JSONValue))

/-- The word `encoding/json` uses for a value in an `UnmarshalTypeError`. -/
def JSONValue.kind : JSONValue → String
  | .null => "null"
  | .bool _ => "bool"
  | .number _ => "number"
  | .string _ => "string"
  | .array _ => "array"
  | .object _ => "object"

/-- A response body: the bytes read, and how `encoding/json` reads them, either the
syntax error it reports or the document. -/
structure Body where
  raw : String
  json : Except Cause JSONValue

/-- Text of `*json.UnmarshalTypeError` for a value that does not fit the whole target. -/
def unmarshalTypeError (value goType : String) : Cause :=
  ⟨"json: cannot unmarshal " ++ value ++ " into Go value of type " ++ goType⟩

/-- Text of `*json.UnmarshalTypeError` for a value that does not fit a struct field. -/
def unmarshalFieldTypeError (value structName field goType : String) : Cause :=
  ⟨"json: cannot unmarshal " ++ value ++ " into Go struct field " ++ structName ++ "." ++ field
    ++ " of type " ++ goType⟩

/-- A Go `map[string]interface{}` filled by the decoder, `none` being the nil map; the
list holds the members in document order, a later member overwriting an earlier one. -/
abbrev GoMap := Option (List (String × JSONValue))

/-- Go map indexing `m[key]`: the last member stored under `key`, `none` when there is
no such key or the map is nil. -/
def GoMap.index (m : GoMap) (key : String) : Option JSONValue :=
  match m with
  | none => none
  | some members => (members.reverse.find? (fun kv => kv.1 == key)).map (fun kv => kv.2)

/-- Decoding with `json.Unmarshal(body, &m)` into a nil `map[string]interface{}`: the
error returned and the map afterwards. -/
def unmarshalMap (body : Body) : Option Cause × GoMap :=
  match body.json with
  | .error e => (some e, none)
  | .ok .null => (none, none)
  | .ok (.object members) => (none, some members)
  | .ok v => (some (unmarshalTypeError v.kind "map[string]interface \x7b\x7d"), none)

/-- Case folding of one rune as far as matching an ASCII field name needs it: ASCII
letters fold to upper case, and so do the two other runes whose fold orbit holds an
ASCII letter (the Kelvin sign and the long s). -/
def foldRune (c : Char) : Char :=
  if c = Char.ofNat 0x212A then 'K'
  else if c = Char.ofNat 0x017F then 'S'
  else c.toUpper

/-- Folding of a key, rune by rune. -/
def foldName (s : String) : String := ⟨s.data.map foldRune⟩

/-- Whether an object key selects the struct field tagged `field`: an exact match, or
a match up to case folding. -/
def matchesField (field key : String) : Bool :=
  key == field || foldName key == foldName field

/-- Decoding the members of an object into `struct { IAMToken string "json:iamToken" }`,
one member after the other: `acc` is the field so far and the first saved error. A string
is stored, `null` leaves the field alone, any other value saves a type error and the
decoder goes on. -/
def decodeMembers : List (String × JSONValue) → String × Option Cause → String × Option Cause
  | [], acc => acc
  | (key, v) :: rest, (tok, err) =>
    if matchesField "iamToken" key then
      match v with
      | .string s => decodeMembers rest (s, err)
      | .null => decodeMembers rest (tok, err)
      | other =>
        decodeMembers rest
          (tok, err.orElse fun _ =>
            some (unmarshalFieldTypeError other.kind "" "iamToken" "string"))
    else decodeMembers rest (tok, err)

/-- Decoding with `json.Unmarshal(body, &responseData)` into the zero value of the
anonymous struct: the field `IAMToken` afterwards and the error returned. -/
def unmarshalResponseData (body : Body) : String × Option Cause :=
  match body.json with
  | .error e => ("", some e)
  | .ok .null => ("", none)
  | .ok (.object members) => decodeMembers members ("", none)
  | .ok v =>
    ("", some (unmarshalTypeError v.kind "struct \x7b IAMToken string \"json:\\\"iamToken\\\"\" \x7d"))

/-! ## The token manager (`auth/iam_token_manager.go`) -/

/-- Go `http.Client`, as far as the program configures it. -/
structure HTTPClient where
  Timeout : Duration
  deriving DecidableEq, Repr

/-- Go `IAMTokenManager`; the mutex `mu` is accounted for in the event traces. -/
structure IAMTokenManager where
  oauthToken : String
  httpClient : HTTPClient
  iamToken : String
  iamTokenExpiry : Time
  deriving DecidableEq, Repr

/-- An outgoing HTTP request: method, URL, the JSON document sent as body (if any) and
the headers set. -/
structure Request where
  method : String
  url : String
  body : Option JSONValue
  headers : List (String × String)

/-- What the caller does to the mutex and the outside world, in program order:
operations on `mu`, a call of the exchanger `GetIAMToken`, and a request handed to
`httpClient.Do`. -/
inductive Event where
  | RLock
  | RUnlock
  | Lock
  | Unlock
  | Exchange
  | HTTPDo (req : Request)

/-- Whether the event is a call of the exchanger. -/
@[simp]
def Event.isExchange : Event → Bool
  | .Exchange => true
  | _ => false

/-- Whether the event is a request handed to the HTTP client. -/
@[simp]
def Event.isHTTPDo : Event → Bool
  | .HTTPDo _ => true
  | _ => false

/-- Constant `iamTokenEndpoint`. -/
def iamTokenEndpoint : String := "https://iam.api.cloud.yandex.net/iam/v1/tokens"

/-- What the calls made by one run of `GetIAMToken` produce: a failure of one of the
library calls, or a response with its status code and body. -/
inductive ExchangeOutcome where
  | marshalFailed (err : Cause)
  | newRequestFailed (err : Cause)
  | doFailed (err : Cause)
  | readFailed (status : Int) (err : Cause)
  | response (status : Int) (body : Body)

/-- A value returned together with the manager afterwards and the events performed. -/
structure Run (α : Type) where
  ret : α
  m : IAMTokenManager
  trace : List Event

/-- Go `http.StatusOK`. -/
def StatusOK : Int := 200

/-- Go `NewIAMTokenManager`: the pair returned (`none` being `nil`) and the events
performed, of which the function has none. -/
def NewIAMTokenManager (oauthToken : String) (httpClient : Option HTTPClient) :
    (Option IAMTokenManager × Option Error) × List Event :=
  if oauthToken = "" then
    ((none, some (NewAuthenticationError "OAuth token cannot be empty" none)), [])
  else
    let httpClient := match httpClient with
      | none => { Timeout := 30 * Second }
      | some c => c
    ((some { oauthToken := oauthToken, httpClient := httpClient, iamToken := "",
             iamTokenExpiry := 0 }, none), [])

/-- The request `GetIAMToken` builds: the credential under `yandexPassportOauthToken`,
posted to the token endpoint with the two JSON headers. -/
def tokenRequest (m : IAMTokenManager) : Request :=
  { method := "POST"
    url := iamTokenEndpoint
    body := some (.object [("yandexPassportOauthToken", .string m.oauthToken)])
    headers := [("Content-Type", "application/json"), ("Accept", "application/json")] }

/-- Go `GetIAMToken`: the pair returned and the events performed (the manager is only read). -/
def GetIAMToken (m : IAMTokenManager) (out : ExchangeOutcome) :
    (String × Option Error) × List Event :=
  match out with
  | .marshalFailed err =>
    (("", some (NewAuthenticationError "Failed to marshal request" (some err))), [])
  | .newRequestFailed err =>
    (("", some (NewAuthenticationError "Failed to create request" (some err))), [])
  | .doFailed err =>
    (("", some (NewAuthenticationError "Failed to get IAM token" (some err))),
      [.HTTPDo (tokenRequest m)])
  | .readFailed _ err =>
    (("", some (NewAuthenticationError "Failed to read response" (some err))),
      [.HTTPDo (tokenRequest m)])
  | .response status body =>
    if status ≠ StatusOK then
      let errorData := (unmarshalMap body).2
      let errorMessage :=
        match errorData.index "message" with
        | some (.string msg) => msg
        | _ => "Unknown error"
      (("", some (NewAuthenticationError
        ("Failed to get IAM token (HTTP " ++ toString status ++ "): " ++ errorMessage) none)),
        [.HTTPDo (tokenRequest m)])
    else
      match unmarshalResponseData body with
      | (_, some err) =>
        (("", some (NewAuthenticationError "Failed to parse response" (some err))),
          [.HTTPDo (tokenRequest m)])
      | (token, none) =>
        if token = "" then
          (("", some (NewAuthenticationError "IAM token not found in response" none)),
            [.HTTPDo (tokenRequest m)])
        else ((token, none), [.HTTPDo (tokenRequest m)])

/-- Go `refreshIAMToken`; `now` is the reading of `time.Now()` taken when the token is stored. -/
def refreshIAMToken (m : IAMTokenManager) (out : ExchangeOutcome) (now : Time) :
    Run (Option Error) :=
  match GetIAMToken m out with
  | ((_, some err), tr) => { ret := some err, m := m, trace := .Exchange :: tr }
  | ((token, none), tr) =>
    { ret := none
      m := { m with iamToken := token
                    iamTokenExpiry := Add now (tokenLifetime - tokenRefreshMargin) }
      trace := .Exchange :: tr ++ [.Lock, .Unlock] }

/-- Go `GetValidIAMToken`, run without interference from other callers; `now` is the
reading of `time.Now()` in the check, `out` and `storeTime` are what a refresh meets. -/
def GetValidIAMToken (m : IAMTokenManager) (now : Time) (out : ExchangeOutcome)
    (storeTime : Time) : Run (String × Option Error) :=
  let needsRefresh := m.iamToken == "" || After now m.iamTokenExpiry
  if needsRefresh then
    let r := refreshIAMToken m out storeTime
    match r.ret with
    | some err => { ret := ("", some err), m := r.m, trace := [.RLock, .RUnlock] ++ r.trace }
    | none =>
      { ret := (r.m.iamToken, none), m := r.m
        trace := [.RLock, .RUnlock] ++ r.trace ++ [.RLock, .RUnlock] }
  else
    { ret := (m.iamToken, none), m := m, trace := [.RLock, .RUnlock, .RLock, .RUnlock] }

/-- Go `ClearCache` (under the write lock). -/
def ClearCache (m : IAMTokenManager) : IAMTokenManager :=
  { m with iamToken := "", iamTokenExpiry := 0 }

/-- Go `HasValidCachedToken` (under the read lock); `now` is the reading of `time.Now()`. -/
def HasValidCachedToken (m : IAMTokenManager) (now : Time) : Bool :=
  m.iamToken != "" && Before now m.iamTokenExpiry

/-- Number of calls to the credential exchanger in a trace. -/
def exchanges (tr : List Event) : Nat := tr.countP Event.isExchange

/-- Number of requests handed to the HTTP client in a trace. -/
def httpCalls (tr : List Event) : Nat := tr.countP Event.isHTTPDo

/-! ## The client constructor (`client.go`) -/

/-- Go `Client`. -/
structure Client where
  httpClient : HTTPClient
  authManager : IAMTokenManager
  deriving DecidableEq, Repr

/-- Go `NewClient`: the pair returned and the events performed, which are those of the
call to `NewIAMTokenManager`. -/
def NewClient (oauthToken : String) (httpClient : Option HTTPClient) :
    (Option Client × Option Error) × List Event :=
  if oauthToken = "" then
    ((none, some (NewAuthenticationError "OAuth token cannot be empty" none)), [])
  else
    let httpClient := match httpClient with
      | none => { Timeout := 0 }
      | some c => c
    match NewIAMTokenManager oauthToken (some httpClient) with
    | ((_, some err), tr) => ((none, some err), tr)
    | ((none, none), tr) => ((none, none), tr)
    | ((some authManager, none), tr) =>
      ((some { httpClient := httpClient, authManager := authManager }, none), tr)

/-! ## What a document says about the field `iamToken` -/

/-- The values of the members whose key selects the field `IAMToken`, in document order. -/
def tokenValues (members : List (String × JSONValue)) : List JSONValue :=
  (members.filter (fun kv => matchesField "iamToken" kv.1)).map (fun kv => kv.2)

/-- Whether a value is a JSON string or `null`. -/
def JSONValue.isStringOrNull : JSONValue → Bool
  | .string _ => true
  | .null => true
  | _ => false

/-- The content of a JSON string. -/
def JSONValue.asString : JSONValue → Option String
  | .string s => some s
  | _ => none

/-- The last string among the values given for the field `IAMToken`. -/
def lastTokenString (members : List (String × JSONValue)) : Option String :=
  ((tokenValues members).filterMap JSONValue.asString).getLast?

/-! ## Lock discipline of a trace -/

/-- Replays a trace for a caller that holds `r` read locks and `w` write locks at its
start: true when every unlock releases a lock that is held, every call of the exchanger
and every HTTP request happens while no lock is held, and no lock is held at the end. -/
def lockDiscipline : List Event → Nat → Nat → Bool
  | [], r, w => r == 0 && w == 0
  | .RLock :: tr, r, w => lockDiscipline tr (r + 1) w
  | .RUnlock :: tr, r, w => r != 0 && lockDiscipline tr (r - 1) w
  | .Lock :: tr, r, w => lockDiscipline tr r (w + 1)
  | .Unlock :: tr, r, w => w != 0 && lockDiscipline tr r (w - 1)
  | .Exchange :: tr, r, w => r == 0 && w == 0 && lockDiscipline tr r w
  | .HTTPDo _ :: tr, r, w => r == 0 && w == 0 && lockDiscipline tr r w

/-! ## The request executor (`resources/abstract_resource.go`) -/

/-- A Go value handed to `json.Marshal`, identified with what `Marshal` makes of it: the
error it reports or the document it writes. -/
abbrev Payload := Except Cause JSONValue

/-- An HTTP response as `parseResponse` receives it: the status code, and what
`io.ReadAll(resp.Body)` produces. -/
structure Response where
  StatusCode : Int
  ReadAll : Except Cause Body

/-- Go `AbstractResource`; `authManager` is the manager the pointer refers to. -/
structure AbstractResource where
  httpClient : HTTPClient
  authManager : IAMTokenManager
  baseURI : String

/-- Go `NewAbstractResource`. -/
def NewAbstractResource (httpClient : Option HTTPClient) (authManager : IAMTokenManager)
    (baseURI : String) : AbstractResource :=
  let httpClient := match httpClient with
    | none => { Timeout := 0 }
    | some c => c
  { httpClient := httpClient, authManager := authManager, baseURI := baseURI }

/-- What one call of `MakeRequest` meets outside the program: the clock reading and the
exchange outcome for `GetValidIAMToken`, the time at which a refresh stores its token,
the error `http.NewRequest` reports for the method and URL (if any), and what
`httpClient.Do` produces. -/
structure CallEnv where
  now : Time
  exchange : ExchangeOutcome
  storeTime : Time
  newRequest : Option Cause
  send : Except Cause Response

/-- Go `parseResponse`: the data map and the error returned. `make(map...)` is the empty
map `some []`, the nil map is `none`. -/
def parseResponse (resp : Response) : GoMap × Option Error :=
  match resp.ReadAll with
  | .error err =>
    (none, some (NewAPIError "Failed to read response body" resp.StatusCode (some err)))
  | .ok body =>
    if resp.StatusCode ≥ 400 then
      (none, some (NewAPIError
        ("API request failed with status " ++ toString resp.StatusCode ++ ": " ++ body.raw)
        resp.StatusCode none))
    else if body.raw = "" then
      (some [], none)
    else
      match unmarshalMap body with
      | (some err, _) =>
        (none, some (NewAPIError "Failed to parse JSON response" resp.StatusCode (some err)))
      | (none, data) => (data, none)

/-- The request `MakeRequest` builds once it has a token: the method, the base URI
followed by the relative path, the marshalled body (if any) and the three headers. -/
def apiRequest (baseURI method uri : String) (reqBody : Option JSONValue)
    (iamToken : String) : Request :=
  { method := method
    url := baseURI ++ uri
    body := reqBody
    headers := [("Content-Type", "application/json"), ("Accept", "application/json"),
      ("Authorization", "Bearer " ++ iamToken)] }

/-- The document `bytes.NewBuffer(jsonData)` carries: that of a marshalled body, none for a
nil body. -/
def sentBody (body : Option Payload) : Option JSONValue :=
  match body with
  | some (.ok doc) => some doc
  | _ => none

/-- Go `MakeRequest`: the pair returned, the manager afterwards and the events performed. -/
def MakeRequest (r : AbstractResource) (method uri : String) (body : Option Payload)
    (env : CallEnv) : Run (GoMap × Option Error) :=
  let g := GetValidIAMToken r.authManager env.now env.exchange env.storeTime
  match g.ret with
  | (_, some err) => { ret := (none, some err), m := g.m, trace := g.trace }
  | (iamToken, none) =>
    match body with
    | some (.error err) =>
      { ret := (none, some (NewAPIError "Failed to marshal request body" 0 (some err)))
        m := g.m, trace := g.trace }
    | reqBody =>
      match env.newRequest with
      | some err =>
        { ret := (none, some (NewAPIError "Failed to create request" 0 (some err)))
          m := g.m, trace := g.trace }
      | none =>
        let req := apiRequest r.baseURI method uri (sentBody reqBody) iamToken
        match env.send with
        | .error err =>
          { ret := (none, some (NewAPIError "HTTP request failed" 0 (some err)))
            m := g.m, trace := g.trace ++ [.HTTPDo req] }
        | .ok resp => { ret := parseResponse resp, m := g.m, trace := g.trace ++ [.HTTPDo req] }

/-- Whether the value has type `*APIError`. -/
def Error.isAPIError : Error → Bool
  | .APIError _ _ => true
  | _ => false

/-- Whether the value has type `*ValidationError`. -/
def Error.isValidationError : Error → Bool
  | .ValidationError _ => true
  | _ => false

/-- The field `StatusCode` of an `*APIError`. -/
def Error.StatusCode? : Error → Option Int
  | .APIError _ code => some code
  | _ => none

/-! ## Query strings (`BuildQueryString`, with `net/url`) -/

/-- A non-nil value stored in a parameter map by the resource operations: a string or
an int. -/
inductive ParamValue where
  | str (s : String)
  | int (n : Int)
  deriving DecidableEq, Repr

/-- Go `fmt.Sprintf("%v", value)` for such a value. -/
def ParamValue.format : ParamValue → String
  | .str s => s
  | .int n => toString n

/-- The table `upperhex` of `net/url`. -/
def upperhex (n : Nat) : Char := "0123456789ABCDEF".data.getD n '0'

/-- Go `shouldEscape(c, encodeQueryComponent)` of `net/url`: only the unreserved bytes
(letters, digits, `-`, `_`, `.`, `~`) are left alone. -/
def shouldEscape (c : Nat) : Bool :=
  !((97 ≤ c && c ≤ 122) || (65 ≤ c && c ≤ 90) || (48 ≤ c && c ≤ 57) ||
    c == 45 || c == 95 || c == 46 || c == 126)

/-- What `escape` of `net/url` writes for one byte in query-component mode: `+` for a
space, `%XX` for a byte to escape, the byte itself otherwise. -/
def escapeByte (c : Nat) : List Char :=
  if c = 32 then ['+']
  else if shouldEscape c then ['%', upperhex (c / 16), upperhex (c % 16)]
  else [Char.ofNat c]

/-- Go `url.QueryEscape`, byte by byte over the UTF-8 encoding of the string. -/
def QueryEscape (s : String) : String :=
  ⟨(s.data.flatMap fun ch => (String.utf8EncodeChar ch).map UInt8.toNat).flatMap escapeByte⟩

/-- Go `url.Values` as the program fills it: the (key, value) entries in the order of
the calls of `Add`. The map has no key exactly when the list is empty, and the values of
one key keep the order in which they were added. -/
abbrev Values := List (String × String)

/-- Go `Values.Add`. -/
def Values.Add (v : Values) (key value : String) : Values := v ++ [(key, value)]

/-- The order in which `Values.Encode` visits keys: ascending byte-wise, which on valid
UTF-8 is ascending by code points. -/
def keyLE (a b : String × String) : Prop := a.1.data ≤ b.1.data

instance keyLE_decidable : DecidableRel keyLE := fun a b =>
  inferInstanceAs (Decidable (a.1.data ≤ b.1.data))

/-- One `key=value` piece of an encoded query. -/
def encodePair (kv : String × String) : String :=
  QueryEscape kv.1 ++ "=" ++ QueryEscape kv.2

/-- Go `Values.Encode`: the keys in ascending order, the values of one key in the order
added, every piece written as `key=value` with both sides escaped, `&` between pieces. -/
def Values.Encode (v : Values) : String :=
  "&".intercalate ((v.insertionSort keyLE).map encodePair)

/-- Go `BuildQueryString`; `params` lists the entries of the map in the order in which
the `range` loop visits them, `none` being a nil value. -/
def BuildQueryString (params : List (String × Option ParamValue)) : String :=
  let values : Values := params.foldl
    (fun values kv =>
      match kv.2 with
      | some value => values.Add kv.1 value.format
      | none => values) []
  if values.length = 0 then "" else "?" ++ values.Encode

/-- The entries of a parameter map that hold a value, each with its formatted value. -/
def nonNilEntries (params : List (String × Option ParamValue)) : List (String × String) :=
  params.filterMap fun kv => kv.2.map fun value => (kv.1, value.format)

/-! ## Resource operations (`resources/*_resource.go`)

Every resource type embeds `*AbstractResource`, so an operation takes the
`AbstractResource` as its receiver. A `*int` or `*string` argument is an `Option`. -/

/-- A Go `map[string]interface{}` passed as request data: its number of entries and what
`json.Marshal` makes of it. -/
structure DataMap where
  len : Nat
  marshal : Payload

/-- A Go slice `[]map[string]interface{}`. -/
abbrev DataMaps := List DataMap

/-- What `json.Marshal` makes of the map with the single key `key` holding the slice:
the first error among the elements, or the object holding the array of their documents. -/
def marshalSlice (key : String) (maps : DataMaps) : Payload :=
  match maps.mapM (fun d => d.marshal) with
  | .error err => .error err
  | .ok docs => .ok (.object [(key, .array docs)])

/-- Returning `nil, errors.NewValidationError(message)` before anything else is done. -/
def validationFailure (r : AbstractResource) (message : String) :
    Run (GoMap × Option Error) :=
  { ret := (none, some (NewValidationError message)), m := r.authManager, trace := [] }

/-- The entries `pageSize` and `pageToken` that the list operations store when the
pointers are not nil. -/
def pageParams (pageSize : Option Int) (pageToken : Option String) :
    List (String × Option ParamValue) :=
  (match pageSize with
   | some n => [("pageSize", some (.int n))]
   | none => []) ++
  (match pageToken with
   | some s => [("pageToken", some (.str s))]
   | none => [])

/-- Go `(*FolderResource).List`. -/
def FolderResource.List (r : AbstractResource) (cloudID : String) (pageSize : Option Int)
    (pageToken : Option String) (env : CallEnv) : Run (GoMap × Option Error) :=
  let params := ("cloudId", some (.str cloudID)) :: pageParams pageSize pageToken
  let query := BuildQueryString params
  MakeRequest r "GET" ("resource-manager/v1/folders" ++ query) none env

/-- Go `(*FolderResource).Get`. -/
def FolderResource.Get (r : AbstractResource) (folderID : String) (env : CallEnv) :
    Run (GoMap × Option Error) :=
  if folderID = "" then validationFailure r "Folder ID cannot be empty"
  else MakeRequest r "GET" ("resource-manager/v1/folders/" ++ folderID) none env

/-- Go `(*FolderResource).Update`. -/
def FolderResource.Update (r : AbstractResource) (folderID : String) (data : DataMap)
    (env : CallEnv) : Run (GoMap × Option Error) :=
  if folderID = "" then validationFailure r "Folder ID cannot be empty"
  else if data.len = 0 then validationFailure r "Update data cannot be empty"
  else MakeRequest r "PATCH" ("resource-manager/v1/folders/" ++ folderID)
    (some data.marshal) env

/-- Go `(*FolderResource).Delete`. -/
def FolderResource.Delete (r : AbstractResource) (folderID : String) (env : CallEnv) :
    Run (GoMap × Option Error) :=
  if folderID = "" then validationFailure r "Folder ID cannot be empty"
  else MakeRequest r "DELETE" ("resource-manager/v1/folders/" ++ folderID) none env

/-- Go `(*FolderResource).ListOperations`. -/
def FolderResource.ListOperations (r : AbstractResource) (folderID : String)
    (pageSize : Option Int) (pageToken : Option String) (env : CallEnv) :
    Run (GoMap × Option Error) :=
  if folderID = "" then validationFailure r "Folder ID cannot be empty"
  else
    let query := BuildQueryString (pageParams pageSize pageToken)
    MakeRequest r "GET" ("resource-manager/v1/folders/" ++ folderID ++ "/operations" ++ query)
      none env

/-- Go `(*FolderResource).ListAccessBindings`. -/
def FolderResource.ListAccessBindings (r : AbstractResource) (folderID : String)
    (pageSize : Option Int) (pageToken : Option String) (env : CallEnv) :
    Run (GoMap × Option Error) :=
  if folderID = "" then validationFailure r "Folder ID cannot be empty"
  else
    let query := BuildQueryString (pageParams pageSize pageToken)
    MakeRequest r "GET"
      ("resource-manager/v1/folders/" ++ folderID ++ ":listAccessBindings" ++ query) none env

/-- Go `(*FolderResource).UpdateAccessBindings`. -/
def FolderResource.UpdateAccessBindings (r : AbstractResource) (folderID : String)
    (accessBindingDeltas : DataMaps) (env : CallEnv) : Run (GoMap × Option Error) :=
  if folderID = "" then validationFailure r "Folder ID cannot be empty"
  else if accessBindingDeltas.length = 0 then
    validationFailure r "Access binding deltas cannot be empty"
  else MakeRequest r "POST"
    ("resource-manager/v1/folders/" ++ folderID ++ ":updateAccessBindings")
    (some (marshalSlice "accessBindingDeltas" accessBindingDeltas)) env

/-- Go `(*ServiceAccountResource).List`. -/
def ServiceAccountResource.List (r : AbstractResource) (folderID : String)
    (pageSize : Option Int) (pageToken : Option String) (env : CallEnv) :
    Run (GoMap × Option Error) :=
  let params := ("folderId", some (.str folderID)) :: pageParams pageSize pageToken
  let query := BuildQueryString params
  MakeRequest r "GET" ("iam/v1/serviceAccounts" ++ query) none env

/-- Go `(*APIKeyResource).List`. -/
def APIKeyResource.List (r : AbstractResource) (serviceAccountID : String)
    (pageSize : Option Int) (pageToken : Option String) (env : CallEnv) :
    Run (GoMap × Option Error) :=
  let params := ("serviceAccountId", some (.str serviceAccountID)) ::
    pageParams pageSize pageToken
  let query := BuildQueryString params
  MakeRequest r "GET" ("iam/v1/apiKeys" ++ query) none env

/-- Go `(*APIKeyResource).Get`. -/
def APIKeyResource.Get (r : AbstractResource) (apiKeyID : String) (env : CallEnv) :
    Run (GoMap × Option Error) :=
  if apiKeyID = "" then validationFailure r "API key ID cannot be empty"
  else MakeRequest r "GET" ("iam/v1/apiKeys/" ++ apiKeyID) none env

/-- Go `(*APIKeyResource).Create`; the map of strings always marshals, its keys in
ascending order. -/
def APIKeyResource.Create (r : AbstractResource) (serviceAccountID : String)
    (description : Option String) (env : CallEnv) : Run (GoMap × Option Error) :=
  if serviceAccountID = "" then validationFailure r "Service account ID cannot be empty"
  else
    let data : Payload := .ok (.object
      ((match description with
        | some d => [("description", JSONValue.string d)]
        | none => []) ++ [("serviceAccountId", .string serviceAccountID)]))
    MakeRequest r "POST" "iam/v1/apiKeys" (some data) env

/-- Go `(*APIKeyResource).Update`. -/
def APIKeyResource.Update (r : AbstractResource) (apiKeyID : String) (data : DataMap)
    (env : CallEnv) : Run (GoMap × Option Error) :=
  if apiKeyID = "" then validationFailure r "API key ID cannot be empty"
  else if data.len = 0 then validationFailure r "Update data cannot be empty"
  else MakeRequest r "PATCH" ("iam/v1/apiKeys/" ++ apiKeyID) (some data.marshal) env

/-- Go `(*APIKeyResource).Delete`. -/
def APIKeyResource.Delete (r : AbstractResource) (apiKeyID : String) (env : CallEnv) :
    Run (GoMap × Option Error) :=
  if apiKeyID = "" then validationFailure r "API key ID cannot be empty"
  else MakeRequest r "DELETE" ("iam/v1/apiKeys/" ++ apiKeyID) none env

/-- Go `(*RefreshTokenResource).Revoke`. -/
def RefreshTokenResource.Revoke (r : AbstractResource) (tokenID : String) (env : CallEnv) :
    Run (GoMap × Option Error) :=
  if tokenID = "" then validationFailure r "Token ID cannot be empty"
  else MakeRequest r "DELETE" ("iam/v1/refreshTokens/" ++ tokenID) none env

/-- Go `(*UserAccountResource).Get`. -/
def UserAccountResource.Get (r : AbstractResource) (userAccountID : String)
    (env : CallEnv) : Run (GoMap × Option Error) :=
  if userAccountID = "" then validationFailure r "User account ID cannot be empty"
  else MakeRequest r "GET" ("iam/v1/userAccounts/" ++ userAccountID) none env

/-- Go `(*YandexPassportUserAccountResource).GetByLogin`. -/
def YandexPassportUserAccountResource.GetByLogin (r : AbstractResource) (login : String)
    (env : CallEnv) : Run (GoMap × Option Error) :=
  if login = "" then validationFailure r "Login cannot be empty"
  else MakeRequest r "GET" ("iam/v1/yandexPassportUserAccounts:byLogin?login=" ++ login)
    none env

/-! ## Sample values -/

/-- A manager as `NewIAMTokenManager "tok-123" nil` builds it. -/
def freshManager : IAMTokenManager :=
  { oauthToken := "tok-123", httpClient := { Timeout := 30 * Second }, iamToken := "",
    iamTokenExpiry := 0 }

/-- The body `{"iamToken":"abc"}`. -/
def tokenBody : Body :=
  { raw := "\x7b\"iamToken\":\"abc\"\x7d"
    json := .ok (.object [("iamToken", .string "abc")]) }

/-- The body `{"message":"invalid credential"}`. -/
def messageBody : Body :=
  { raw := "\x7b\"message\":\"invalid credential\"\x7d"
    json := .ok (.object [("message", .string "invalid credential")]) }

/-- The body `{"IAMTOKEN":"x"}`. -/
def upperKeyBody : Body :=
  { raw := "\x7b\"IAMTOKEN\":\"x\"\x7d"
    json := .ok (.object [("IAMTOKEN", .string "x")]) }

/-- The body `{"iamToken":"abc","IAMTOKEN":5}`. -/
def mixedKeysBody : Body :=
  { raw := "\x7b\"iamToken\":\"abc\",\"IAMTOKEN\":5\x7d"
    json := .ok (.object [("iamToken", .string "abc"), ("IAMTOKEN", .number "5")]) }

/-- A manager holding token `abc` with expiry at 11h55m. -/
def cachedManager : IAMTokenManager :=
  { freshManager with iamToken := "abc", iamTokenExpiry := 42900000000000 }

/-- A resource of the IAM service whose manager holds a cached token. -/
def cachedResource : AbstractResource :=
  NewAbstractResource none cachedManager "https://iam.api.cloud.yandex.net/"

/-- A call at time 100 (the cached token is valid) whose request can be built and to
which the transport answers `send`. -/
def callAt100 (send : Except Cause Response) : CallEnv :=
  { now := 100, exchange := .doFailed ⟨"unused"⟩, storeTime := 100, newRequest := none,
    send := send }

/-- The response `304 Not Modified`, which has an empty body. -/
def notModified : Response :=
  { StatusCode := 304
    ReadAll := .ok { raw := "", json := .error ⟨"unexpected end of JSON input"⟩ } }

/-- The response `404` with the body `not found`. -/
def notFound : Response :=
  { StatusCode := 404
    ReadAll := .ok { raw := "not found", json := .error ⟨"invalid character"⟩ } }

/-- The response `200` with the body `{}`. -/
def emptyObject : Response :=
  { StatusCode := 200, ReadAll := .ok { raw := "\x7b\x7d", json := .ok (.object []) } }

/-- A resource of the resource manager whose manager holds a cached token. -/
def folderResource : AbstractResource :=
  NewAbstractResource none cachedManager "https://resource-manager.api.cloud.yandex.net/"

/-! ## Basic facts shared by the proofs -/

theorem lifetime_minus_margin : tokenLifetime - tokenRefreshMargin = 42900000000000 := by
  decide

/-- A nil error from `GetIAMToken` comes with a non-empty token. -/
theorem GetIAMToken_ok_ne_empty (m : IAMTokenManager) (out : ExchangeOutcome) (x : String)
    (h : (GetIAMToken m out).1 = (x, none)) : x ≠ "" := by
  cases out with
  | response status body =>
    simp only [GetIAMToken] at h
    split at h
    · split at h <;> simp at h
    · split at h
      · simp at h
      · split at h
        · simp at h
        · rename_i hne
          simp at h
          exact h ▸ hne
  | _ => simp [GetIAMToken] at h

/-- A failing refresh returns the error and the manager it was given. -/
theorem refreshIAMToken_error (m : IAMTokenManager) (out : ExchangeOutcome) (now : Time)
    (e : Error) (h : (GetIAMToken m out).1.2 = some e) :
    refreshIAMToken m out now =
      { ret := some e, m := m, trace := .Exchange :: (GetIAMToken m out).2 } := by
  unfold refreshIAMToken
  split
  · rename_i _ err tr heq
    rw [heq] at h
    simp at h
    simp [heq, h]
  · rename_i tok tr heq
    rw [heq] at h
    simp at h

/-- A successful refresh stores the token and the expiry. -/
theorem refreshIAMToken_ok (m : IAMTokenManager) (out : ExchangeOutcome) (now : Time)
    (h : (GetIAMToken m out).1.2 = none) :
    refreshIAMToken m out now =
      { ret := none
        m := { m with iamToken := (GetIAMToken m out).1.1
                      iamTokenExpiry := Add now (tokenLifetime - tokenRefreshMargin) }
        trace := .Exchange :: (GetIAMToken m out).2 ++ [.Lock, .Unlock] } := by
  unfold refreshIAMToken
  split
  · rename_i _ err tr heq
    rw [heq] at h
    simp at h
  · rename_i tok tr heq
    simp [heq]

/-- The exchanger is not called from inside `GetIAMToken`, which is the exchanger. -/
theorem GetIAMToken_trace_exchanges (m : IAMTokenManager) (out : ExchangeOutcome) :
    exchanges (GetIAMToken m out).2 = 0 := by
  cases out with
  | response status body =>
    simp only [GetIAMToken]
    split
    · simp [exchanges]
    · split
      · simp [exchanges]
      · split <;> simp [exchanges]
  | _ => simp [GetIAMToken, exchanges]

/-- One refresh is one call of the exchanger. -/
theorem refreshIAMToken_exchanges (m : IAMTokenManager) (out : ExchangeOutcome) (now : Time) :
    exchanges (refreshIAMToken m out now).trace = 1 := by
  have h0 := GetIAMToken_trace_exchanges m out
  unfold refreshIAMToken
  split
  · rename_i heq
    rw [heq] at h0
    simp only [exchanges] at h0 ⊢
    simp [h0]
  · rename_i heq
    rw [heq] at h0
    simp only [exchanges] at h0 ⊢
    simp [h0]

/-- When the check of `GetValidIAMToken` asks for a refresh, the call is the refresh
followed by a read of the cache. -/
theorem GetValidIAMToken_of_needsRefresh (m : IAMTokenManager) (now : Time)
    (out : ExchangeOutcome) (t : Time) (h : m.iamToken = "" ∨ m.iamTokenExpiry < now) :
    exchanges (GetValidIAMToken m now out t).trace = 1 ∧
    (GetValidIAMToken m now out t).m = (refreshIAMToken m out t).m ∧
    (GetValidIAMToken m now out t).ret =
      (match (refreshIAMToken m out t).ret with
       | some err => ("", some err)
       | none => ((refreshIAMToken m out t).m.iamToken, none)) := by
  have hx := refreshIAMToken_exchanges m out t
  have hn : (m.iamToken == "" || After now m.iamTokenExpiry) = true := by
    simpa [After] using h
  unfold GetValidIAMToken
  simp only [hn, if_true]
  split
  · rename_i heq
    simp only [exchanges] at hx ⊢
    simp [heq, hx]
  · rename_i heq
    simp only [exchanges] at hx ⊢
    simp [heq, hx]

/-- When the check of `GetValidIAMToken` asks for no refresh, the cached token is served. -/
theorem GetValidIAMToken_of_not_needsRefresh (m : IAMTokenManager) (now : Time)
    (out : ExchangeOutcome) (t : Time) (h1 : m.iamToken ≠ "") (h2 : now ≤ m.iamTokenExpiry) :
    GetValidIAMToken m now out t =
      { ret := (m.iamToken, none), m := m, trace := [.RLock, .RUnlock, .RLock, .RUnlock] } := by
  have hn : (m.iamToken == "" || After now m.iamTokenExpiry) = false := by
    simp [After, h1, h2]
  unfold GetValidIAMToken
  simp only [hn]
  simp

/-- The answer of `GetIAMToken` to a response whose status is not 200. -/
theorem GetIAMToken_non_ok (m : IAMTokenManager) (status : Int) (body : Body)
    (h : status ≠ 200) :
    (GetIAMToken m (.response status body)).1 =
      ("", some (NewAuthenticationError
        ("Failed to get IAM token (HTTP " ++ toString status ++ "): " ++
          (match (unmarshalMap body).2.index "message" with
           | some (.string msg) => msg
           | _ => "Unknown error")) none)) := by
  simp only [GetIAMToken, StatusOK]
  rw [if_pos h]

/-- The field decoded from the members is the last string given for it, or what it was. -/
theorem decodeMembers_fst (members : List (String × JSONValue)) (tok : String)
    (err : Option Cause) :
    (decodeMembers members (tok, err)).1 = (lastTokenString members).getD tok := by
  induction members generalizing tok err with
  | nil => simp [decodeMembers, lastTokenString, tokenValues]
  | cons kv rest ih =>
    obtain ⟨key, v⟩ := kv
    by_cases hk : matchesField "iamToken" key = true
    · have ht : tokenValues ((key, v) :: rest) = v :: tokenValues rest := by
        simp [tokenValues, hk]
      cases v with
      | string s =>
        simp only [decodeMembers, hk, if_true, ih, lastTokenString, ht, List.filterMap_cons,
          JSONValue.asString, List.getLast?_cons, Option.getD_some]
      | _ =>
        simp only [decodeMembers, hk, if_true, ih, lastTokenString, ht, List.filterMap_cons,
          JSONValue.asString]
    · have hl : lastTokenString ((key, v) :: rest) = lastTokenString rest := by
        simp [lastTokenString, tokenValues, hk]
      rw [hl, ← ih tok err]
      simp [decodeMembers, hk]

/-- The decoder reports no error exactly when it started with none and every value given
for the field is a string or `null`. -/
theorem decodeMembers_snd (members : List (String × JSONValue)) (tok : String)
    (err : Option Cause) :
    (decodeMembers members (tok, err)).2 = none ↔
      err = none ∧ ∀ u ∈ tokenValues members, u.isStringOrNull = true := by
  induction members generalizing tok err with
  | nil => simp [decodeMembers, tokenValues]
  | cons kv rest ih =>
    obtain ⟨key, v⟩ := kv
    by_cases hk : matchesField "iamToken" key = true
    · have ht : tokenValues ((key, v) :: rest) = v :: tokenValues rest := by
        simp [tokenValues, hk]
      rw [ht]
      cases v <;> cases err <;>
        simp [decodeMembers, hk, ih, JSONValue.isStringOrNull, Option.orElse]
    · have ht : tokenValues ((key, v) :: rest) = tokenValues rest := by
        simp [tokenValues, hk]
      rw [ht, ← ih tok err]
      simp [decodeMembers, hk]

/-- The events of `GetIAMToken` are at most the one request to the token endpoint. -/
theorem GetIAMToken_trace_cases (m : IAMTokenManager) (out : ExchangeOutcome) :
    (GetIAMToken m out).2 = [] ∨ (GetIAMToken m out).2 = [.HTTPDo (tokenRequest m)] := by
  cases out with
  | response status body =>
    simp only [GetIAMToken]
    split
    · exact Or.inr rfl
    · split
      · exact Or.inr rfl
      · split <;> exact Or.inr rfl
  | marshalFailed err => exact Or.inl rfl
  | newRequestFailed err => exact Or.inl rfl
  | doFailed err => exact Or.inr rfl
  | readFailed status err => exact Or.inr rfl

/-- The trace of a refresh: the call of the exchanger with its events, then, on success
only, the write lock taken and released. -/
theorem refreshIAMToken_trace (m : IAMTokenManager) (out : ExchangeOutcome) (now : Time) :
    (refreshIAMToken m out now).trace =
      .Exchange :: (GetIAMToken m out).2 ++
        (match (GetIAMToken m out).1.2 with
         | some _ => []
         | none => [.Lock, .Unlock]) := by
  cases h : (GetIAMToken m out).1.2 with
  | some e => rw [refreshIAMToken_error m out now e h]; simp
  | none => rw [refreshIAMToken_ok m out now h]

/-- A freshly built manager has an empty cache and keeps the credential. -/
theorem NewIAMTokenManager_some (oauthToken : String) (httpClient : Option HTTPClient)
    (m : IAMTokenManager) (h : (NewIAMTokenManager oauthToken httpClient).1 = (some m, none)) :
    oauthToken ≠ "" ∧ m.oauthToken = oauthToken ∧ m.iamToken = "" ∧ m.iamTokenExpiry = 0 := by
  unfold NewIAMTokenManager at h
  split at h
  · simp at h
  · rename_i hne
    simp only [Prod.mk.injEq, Option.some.injEq, and_true] at h
    subst h
    exact ⟨hne, rfl, rfl, rfl⟩

/-- When the token cannot be had, `MakeRequest` returns the error of `GetValidIAMToken`
and does nothing more. -/
theorem MakeRequest_token_error (r : AbstractResource) (method uri : String)
    (body : Option Payload) (env : CallEnv) (e : Error)
    (h : (GetValidIAMToken r.authManager env.now env.exchange env.storeTime).ret.2 = some e) :
    MakeRequest r method uri body env =
      { ret := (none, some e)
        m := (GetValidIAMToken r.authManager env.now env.exchange env.storeTime).m
        trace := (GetValidIAMToken r.authManager env.now env.exchange env.storeTime).trace } := by
  cases hg : (GetValidIAMToken r.authManager env.now env.exchange env.storeTime).ret with
  | mk tok err =>
    rw [hg] at h
    simp only at h
    subst h
    simp only [MakeRequest, hg]

/-- When the token is had, the body marshals and the request can be built, `MakeRequest`
sends one request and returns what the transport or `parseResponse` gives. -/
theorem MakeRequest_sent (r : AbstractResource) (method uri : String)
    (body : Option Payload) (env : CallEnv) (tok : String)
    (h : (GetValidIAMToken r.authManager env.now env.exchange env.storeTime).ret = (tok, none))
    (hbody : ∀ err, body ≠ some (.error err)) (hreq : env.newRequest = none) :
    MakeRequest r method uri body env =
      { ret := (match env.send with
          | .error err => (none, some (NewAPIError "HTTP request failed" 0 (some err)))
          | .ok resp => parseResponse resp)
        m := (GetValidIAMToken r.authManager env.now env.exchange env.storeTime).m
        trace := (GetValidIAMToken r.authManager env.now env.exchange env.storeTime).trace ++
          [.HTTPDo (apiRequest r.baseURI method uri (sentBody body) tok)] } := by
  simp only [MakeRequest, h, hreq]
  cases body with
  | none => cases env.send <;> rfl
  | some p =>
    cases p with
    | error err => exact absurd rfl (hbody err)
    | ok doc => cases env.send <;> rfl

/-- When the token is had but the body does not marshal or the request cannot be built,
`MakeRequest` sends nothing and returns an `APIError` with status 0. -/
theorem MakeRequest_not_sent (r : AbstractResource) (method uri : String)
    (body : Option Payload) (env : CallEnv) (tok : String)
    (h : (GetValidIAMToken r.authManager env.now env.exchange env.storeTime).ret = (tok, none))
    (hfail : (∃ err, body = some (.error err)) ∨ env.newRequest ≠ none) :
    (MakeRequest r method uri body env).trace =
      (GetValidIAMToken r.authManager env.now env.exchange env.storeTime).trace ∧
    ∃ e, (MakeRequest r method uri body env).ret = (none, some e) ∧
      e.isAPIError = true ∧ e.StatusCode? = some 0 := by
  simp only [MakeRequest, h]
  cases body with
  | none =>
    rcases hfail with ⟨err, he⟩ | hne
    · simp at he
    · cases hn : env.newRequest with
      | none => exact absurd hn hne
      | some err => exact ⟨rfl, _, rfl, rfl, rfl⟩
  | some p =>
    cases p with
    | error err => exact ⟨rfl, _, rfl, rfl, rfl⟩
    | ok doc =>
      rcases hfail with ⟨err, he⟩ | hne
      · simp at he
      · cases hn : env.newRequest with
        | none => exact absurd hn hne
        | some err => exact ⟨rfl, _, rfl, rfl, rfl⟩

/-- The answer of `parseResponse` to a status of 400 or more. -/
theorem parseResponse_client_or_server_error (status : Int) (body : Body)
    (h : 400 ≤ status) :
    parseResponse { StatusCode := status, ReadAll := .ok body } =
      (none, some (NewAPIError
        ("API request failed with status " ++ toString status ++ ": " ++ body.raw)
        status none)) := by
  simp only [parseResponse, ge_iff_le]
  rw [if_pos h]

/-- The order of keys is total. -/
theorem keyLE_total (a b : String × String) : keyLE a b ∨ keyLE b a :=
  le_total a.1.data b.1.data

/-- The order of keys is transitive. -/
theorem keyLE_trans (a b c : String × String) (h1 : keyLE a b) (h2 : keyLE b c) :
    keyLE a c :=
  le_trans (α := List Char) h1 h2

/-- Entries in key order with different keys are in strictly ascending key order. -/
theorem keyLE_lt_of_ne (a b : String × String) (h : keyLE a b) (hne : a.1 ≠ b.1) :
    a.1 < b.1 := by
  rw [String.lt_iff_toList_lt]
  refine lt_of_le_of_ne h ?_
  intro hd
  exact hne (String.ext hd)

/-- The loop of `BuildQueryString` collects the entries that hold a value, in order. -/
theorem BuildQueryString_values (params : List (String × Option ParamValue))
    (acc : Values) :
    params.foldl
      (fun values kv =>
        match kv.2 with
        | some value => Values.Add values kv.1 value.format
        | none => values) acc = acc ++ nonNilEntries params := by
  induction params generalizing acc with
  | nil => simp [nonNilEntries]
  | cons kv rest ih =>
    obtain ⟨k, v⟩ := kv
    cases v with
    | none =>
      simp only [List.foldl_cons]
      rw [ih]
      simp [nonNilEntries]
    | some x =>
      simp only [List.foldl_cons]
      rw [ih]
      simp [nonNilEntries, Values.Add]

/-- `BuildQueryString` in terms of the entries that hold a value. -/
theorem BuildQueryString_eq (params : List (String × Option ParamValue)) :
    BuildQueryString params =
      if nonNilEntries params = [] then ""
      else "?" ++ "&".intercalate (((nonNilEntries params).insertionSort keyLE).map encodePair) := by
  simp only [BuildQueryString, BuildQueryString_values, List.nil_append, Values.Encode,
    List.length_eq_zero]

/-- The keys of the entries that hold a value are keys of the map. -/
theorem nonNilEntries_keys_sublist (params : List (String × Option ParamValue)) :
    ((nonNilEntries params).map Prod.fst).Sublist (params.map Prod.fst) := by
  induction params with
  | nil => simp [nonNilEntries]
  | cons kv rest ih =>
    obtain ⟨k, v⟩ := kv
    cases v with
    | none =>
      simp only [nonNilEntries, List.filterMap_cons, Option.map_none', List.map_cons]
      exact ih.cons _
    | some x =>
      simp only [nonNilEntries, List.filterMap_cons, Option.map_some', List.map_cons]
      exact ih.cons₂ _

/-- Sorting entries with distinct keys puts them in strictly ascending key order. -/
theorem insertionSort_strictly_ascending (l : List (String × String))
    (hnd : (l.map Prod.fst).Nodup) :
    (l.insertionSort keyLE).Pairwise (fun a b => a.1 < b.1) := by
  haveI : IsTotal (String × String) keyLE := ⟨keyLE_total⟩
  haveI : IsTrans (String × String) keyLE := ⟨keyLE_trans⟩
  have hs : (l.insertionSort keyLE).Pairwise keyLE := List.sorted_insertionSort keyLE l
  have hp : (l.insertionSort keyLE).Perm l := List.perm_insertionSort keyLE l
  have hnd2 : ((l.insertionSort keyLE).map Prod.fst).Nodup :=
    (hp.map Prod.fst).nodup_iff.2 hnd
  have hne : (l.insertionSort keyLE).Pairwise (fun a b => a.1 ≠ b.1) :=
    List.pairwise_map.1 hnd2
  exact (hs.and hne).imp (fun h => keyLE_lt_of_ne _ _ h.1 h.2)

/-- Two lists of entries in strictly ascending key order with the same entries are equal. -/
theorem strictly_ascending_unique (l1 l2 : List (String × String)) (hp : l1.Perm l2)
    (h1 : l1.Pairwise (fun a b => a.1 < b.1)) (h2 : l2.Pairwise (fun a b => a.1 < b.1)) :
    l1 = l2 := by
  haveI : IsAntisymm (String × String) (fun a b => a.1 < b.1) :=
    ⟨fun a b hab hba => absurd hba (lt_asymm hab)⟩
  exact List.eq_of_perm_of_sorted hp h1 h2

/-- A string that starts with the question mark is not empty. -/
theorem question_mark_append_ne_empty (s : String) : "?" ++ s ≠ "" := by
  intro h
  have hd := congrArg String.data h
  simp [String.data_append] at hd

/-- The operations that test their identifier answer the empty identifier with a
`ValidationError` and do nothing else: no token is fetched and no request is sent. -/
theorem guarded_operations_reject_empty_identifier (r : AbstractResource) (env : CallEnv)
    (data : DataMap) (deltas : DataMaps) (pageSize : Option Int) (pageToken : Option String)
    (description : Option String) :
    FolderResource.Get r "" env = validationFailure r "Folder ID cannot be empty" ∧
    FolderResource.Update r "" data env = validationFailure r "Folder ID cannot be empty" ∧
    FolderResource.Delete r "" env = validationFailure r "Folder ID cannot be empty" ∧
    FolderResource.ListOperations r "" pageSize pageToken env =
      validationFailure r "Folder ID cannot be empty" ∧
    FolderResource.ListAccessBindings r "" pageSize pageToken env =
      validationFailure r "Folder ID cannot be empty" ∧
    FolderResource.UpdateAccessBindings r "" deltas env =
      validationFailure r "Folder ID cannot be empty" ∧
    APIKeyResource.Get r "" env = validationFailure r "API key ID cannot be empty" ∧
    APIKeyResource.Create r "" description env =
      validationFailure r "Service account ID cannot be empty" ∧
    APIKeyResource.Update r "" data env = validationFailure r "API key ID cannot be empty" ∧
    APIKeyResource.Delete r "" env = validationFailure r "API key ID cannot be empty" ∧
    RefreshTokenResource.Revoke r "" env = validationFailure r "Token ID cannot be empty" ∧
    UserAccountResource.Get r "" env =
      validationFailure r "User account ID cannot be empty" ∧
    YandexPassportUserAccountResource.GetByLogin r "" env =
      validationFailure r "Login cannot be empty" := by
  refine ⟨rfl, rfl, rfl, rfl, rfl, rfl, rfl, rfl, rfl, rfl, rfl, rfl, rfl⟩

/-- An `Update` with an identifier and an empty data map is answered with the
`ValidationError` for empty update data, and nothing else is done. -/
theorem update_rejects_empty_data (r : AbstractResource) (env : CallEnv) (id : String)
    (data : DataMap) (hid : id ≠ "") (hdata : data.len = 0) :
    FolderResource.Update r id data env = validationFailure r "Update data cannot be empty" ∧
    APIKeyResource.Update r id data env = validationFailure r "Update data cannot be empty" := by
  simp [FolderResource.Update, APIKeyResource.Update, hid, hdata]

/-! ## The claims -/

/-- C1: for every manager, every token `x` returned by a successful exchange and every
time `t` at which `refreshIAMToken` stores it, the refresh reports no error and the cache
afterwards holds token `x` and expiry `t + tokenLifetime - tokenRefreshMargin`, which is
`t + 12h - 5min = t + 11h55m`. -/
theorem refreshIAMToken_sets_token_and_expiry (m : IAMTokenManager) (out : ExchangeOutcome)
    (t : Time) (x : String) (h : (GetIAMToken m out).1 = (x, none)) :
    (refreshIAMToken m out t).ret = none ∧
    (refreshIAMToken m out t).m.iamToken = x ∧
    (refreshIAMToken m out t).m.iamTokenExpiry = t + tokenLifetime - tokenRefreshMargin ∧
    (refreshIAMToken m out t).m.iamTokenExpiry = t + 12 * Hour - 5 * Minute ∧
    (refreshIAMToken m out t).m.iamTokenExpiry = t + (11 * Hour + 55 * Minute) := by
  have h2 : (GetIAMToken m out).1.2 = none := by rw [h]
  have h1 : (GetIAMToken m out).1.1 = x := by rw [h]
  rw [refreshIAMToken_ok m out t h2]
  rw [h1]
  refine ⟨rfl, rfl, ?_, ?_, ?_⟩ <;>
    simp only [Add, tokenLifetime, tokenRefreshMargin, Hour, Minute, Second] <;> ring

theorem refreshIAMToken_sets_token_and_expiry_witness :
    (GetIAMToken freshManager (.response 200 tokenBody)).1 = ("abc", none) ∧
    (refreshIAMToken freshManager (.response 200 tokenBody) 7).m.iamToken = "abc" ∧
    (refreshIAMToken freshManager (.response 200 tokenBody) 7).m.iamTokenExpiry
      = 42900000000007 := by
  have h : (GetIAMToken freshManager (.response 200 tokenBody)).1 = ("abc", none) := by decide
  have w := refreshIAMToken_sets_token_and_expiry freshManager (.response 200 tokenBody) 7 "abc" h
  refine ⟨h, w.2.1, ?_⟩
  rw [w.2.2.1]
  decide

/-- C2: for every manager and every time `now` at which `HasValidCachedToken` is true,
`GetValidIAMToken` called at that time calls the exchanger zero times (and makes no
network call), returns the cached token with a nil error, and leaves the manager, so the
token and the expiry, unchanged. -/
theorem GetValidIAMToken_valid_cache_no_exchange (m : IAMTokenManager) (now : Time)
    (out : ExchangeOutcome) (t : Time) (h : HasValidCachedToken m now = true) :
    exchanges (GetValidIAMToken m now out t).trace = 0 ∧
    httpCalls (GetValidIAMToken m now out t).trace = 0 ∧
    (GetValidIAMToken m now out t).ret = (m.iamToken, none) ∧
    (GetValidIAMToken m now out t).m.iamToken = m.iamToken ∧
    (GetValidIAMToken m now out t).m.iamTokenExpiry = m.iamTokenExpiry := by
  simp only [HasValidCachedToken, Before, Bool.and_eq_true, bne_iff_ne, ne_eq,
    decide_eq_true_eq] at h
  rw [GetValidIAMToken_of_not_needsRefresh m now out t h.1 (le_of_lt h.2)]
  simp [exchanges, httpCalls, Event.isExchange, Event.isHTTPDo]

theorem GetValidIAMToken_valid_cache_no_exchange_witness :
    HasValidCachedToken cachedManager 42899999999999 = true ∧
    exchanges (GetValidIAMToken cachedManager 42899999999999 (.doFailed ⟨"timeout"⟩)
      42899999999999).trace = 0 ∧
    (GetValidIAMToken cachedManager 42899999999999 (.doFailed ⟨"timeout"⟩)
      42899999999999).ret = ("abc", none) :=
  have w := GetValidIAMToken_valid_cache_no_exchange cachedManager 42899999999999
    (.doFailed ⟨"timeout"⟩) 42899999999999 (by decide)
  ⟨by decide, w.1, w.2.2.1⟩

/-- C3, the code at the boundary: a manager that stored token `abc` at time `0` holds
expiry 11h55m; at exactly that instant `HasValidCachedToken` reports the token as no
longer valid, yet `GetValidIAMToken` calls the exchanger zero times and serves `abc`. -/
theorem GetValidIAMToken_at_expiry_skips_refresh :
    (refreshIAMToken freshManager (.response 200 tokenBody) 0).m = cachedManager ∧
    cachedManager.iamTokenExpiry ≤ 42900000000000 ∧
    HasValidCachedToken cachedManager 42900000000000 = false ∧
    exchanges (GetValidIAMToken cachedManager 42900000000000 (.response 200 tokenBody)
      42900000000000).trace = 0 ∧
    (GetValidIAMToken cachedManager 42900000000000 (.response 200 tokenBody)
      42900000000000).ret = ("abc", none) := by
  refine ⟨by decide, by decide, by decide, by decide, by decide⟩

/-- C4: for every manager (also one holding a token whose expiry is still ahead), after
`ClearCache` the cache is the empty token with the zero expiry, `HasValidCachedToken` is
false at every time, and the next `GetValidIAMToken` calls the exchanger (once) whatever
the clock reads. -/
theorem ClearCache_forces_refresh (m : IAMTokenManager) :
    (ClearCache m).iamToken = "" ∧
    (ClearCache m).iamTokenExpiry = 0 ∧
    (∀ now : Time, HasValidCachedToken (ClearCache m) now = false) ∧
    (∀ (now : Time) (out : ExchangeOutcome) (t : Time),
      exchanges (GetValidIAMToken (ClearCache m) now out t).trace = 1) := by
  refine ⟨rfl, rfl, ?_, ?_⟩
  · intro now
    simp [HasValidCachedToken, ClearCache]
  · intro now out t
    exact (GetValidIAMToken_of_needsRefresh (ClearCache m) now out t (Or.inl rfl)).1

/-- C5: for every manager and every failing exchange outcome, `refreshIAMToken` and
`GetValidIAMToken` (at every clock reading) leave the manager as it was before the call:
the cached token and the expiry keep their values. -/
theorem failed_exchange_leaves_cache (m : IAMTokenManager) (out : ExchangeOutcome)
    (now t : Time) (e : Error) (h : (GetIAMToken m out).1.2 = some e) :
    (refreshIAMToken m out t).m = m ∧
    (refreshIAMToken m out t).m.iamToken = m.iamToken ∧
    (refreshIAMToken m out t).m.iamTokenExpiry = m.iamTokenExpiry ∧
    (GetValidIAMToken m now out t).m = m ∧
    (GetValidIAMToken m now out t).m.iamToken = m.iamToken ∧
    (GetValidIAMToken m now out t).m.iamTokenExpiry = m.iamTokenExpiry := by
  have hr : (refreshIAMToken m out t).m = m := by rw [refreshIAMToken_error m out t e h]
  have hg : (GetValidIAMToken m now out t).m = m := by
    by_cases hn : m.iamToken = "" ∨ m.iamTokenExpiry < now
    · rw [(GetValidIAMToken_of_needsRefresh m now out t hn).2.1, hr]
    · push_neg at hn
      rw [GetValidIAMToken_of_not_needsRefresh m now out t hn.1 hn.2]
  refine ⟨hr, ?_, ?_, hg, ?_, ?_⟩
  · rw [hr]
  · rw [hr]
  · rw [hg]
  · rw [hg]

theorem failed_exchange_leaves_cache_witness :
    (GetIAMToken cachedManager (.response 401 messageBody)).1.2 =
      some (NewAuthenticationError
        "Failed to get IAM token (HTTP 401): invalid credential" none) ∧
    (refreshIAMToken cachedManager (.response 401 messageBody) 50000000000000).m
      = cachedManager ∧
    (GetValidIAMToken cachedManager 50000000000000 (.response 401 messageBody)
      50000000000000).m = cachedManager :=
  have w := failed_exchange_leaves_cache cachedManager (.response 401 messageBody)
    50000000000000 50000000000000 _ (by decide :
      (GetIAMToken cachedManager (.response 401 messageBody)).1.2 =
        some (NewAuthenticationError
          "Failed to get IAM token (HTTP 401): invalid credential" none))
  ⟨by decide, w.1, w.2.2.2.1⟩

/-- C6, the scenario as written: after the refresh at `t = 0` the token is not reported
valid at `t = 11h56m`. -/
theorem HasValidCachedToken_false_at_11h56m :
    ¬ (HasValidCachedToken (refreshIAMToken freshManager (.response 200 tokenBody) 0).m
        (11 * Hour + 56 * Minute) = true) := by
  decide

/-- C6, amended: after a successful refresh at time `0` the expiry is 11h55m, so
`HasValidCachedToken` is true exactly at the times before 11h55m (at 11h54m, say) and
false at 11h56m and at 11h56m01s, and `GetValidIAMToken` called at 11h56m01s calls the
exchanger. -/
theorem refresh_at_zero_valid_until_11h55m (m : IAMTokenManager) (out : ExchangeOutcome)
    (h : (GetIAMToken m out).1.2 = none) :
    (refreshIAMToken m out 0).m.iamTokenExpiry = 11 * Hour + 55 * Minute ∧
    (∀ now : Time, HasValidCachedToken (refreshIAMToken m out 0).m now = true ↔
      now < 11 * Hour + 55 * Minute) ∧
    HasValidCachedToken (refreshIAMToken m out 0).m (11 * Hour + 54 * Minute) = true ∧
    HasValidCachedToken (refreshIAMToken m out 0).m (11 * Hour + 56 * Minute) = false ∧
    HasValidCachedToken (refreshIAMToken m out 0).m (11 * Hour + 56 * Minute + Second)
      = false ∧
    (∀ (out2 : ExchangeOutcome) (t : Time),
      exchanges (GetValidIAMToken (refreshIAMToken m out 0).m
        (11 * Hour + 56 * Minute + Second) out2 t).trace = 1) := by
  have hne : (GetIAMToken m out).1.1 ≠ "" :=
    GetIAMToken_ok_ne_empty m out _ (Prod.ext rfl h)
  have hexp : (refreshIAMToken m out 0).m.iamTokenExpiry = 11 * Hour + 55 * Minute := by
    rw [refreshIAMToken_ok m out 0 h]
    simp only [Add, tokenLifetime, tokenRefreshMargin, Hour, Minute, Second]
    decide
  have htok : (refreshIAMToken m out 0).m.iamToken ≠ "" := by
    rw [refreshIAMToken_ok m out 0 h]
    exact hne
  have hiff : ∀ now : Time, HasValidCachedToken (refreshIAMToken m out 0).m now = true ↔
      now < 11 * Hour + 55 * Minute := by
    intro now
    simp [HasValidCachedToken, Before, htok, hexp]
  refine ⟨hexp, hiff, ?_, ?_, ?_, ?_⟩
  · exact (hiff _).2 (by decide)
  · rw [Bool.eq_false_iff, Ne, hiff]
    decide
  · rw [Bool.eq_false_iff, Ne, hiff]
    decide
  · intro out2 t
    refine (GetValidIAMToken_of_needsRefresh _ _ out2 t (Or.inr ?_)).1
    rw [hexp]
    decide

theorem refresh_at_zero_valid_until_11h55m_witness :
    (GetIAMToken freshManager (.response 200 tokenBody)).1.2 = none ∧
    HasValidCachedToken (refreshIAMToken freshManager (.response 200 tokenBody) 0).m
      (11 * Hour + 54 * Minute) = true ∧
    HasValidCachedToken (refreshIAMToken freshManager (.response 200 tokenBody) 0).m
      (11 * Hour + 56 * Minute) = false :=
  have w := refresh_at_zero_valid_until_11h55m freshManager (.response 200 tokenBody)
    (by decide)
  ⟨by decide, w.2.2.1, w.2.2.2.1⟩

/-- C7: for every HTTP-client argument (nil or not), `NewIAMTokenManager` and `NewClient`
return an `AuthenticationError` and no manager or client exactly when the OAuth
credential is the empty string; they perform no exchange and no network call; and for
every non-empty credential they return a nil error and a manager whose cache is empty
(empty token, zero expiry, `HasValidCachedToken` false at every time). -/
theorem constructors_reject_exactly_empty_credential (oauthToken : String)
    (httpClient : Option HTTPClient) :
    ((∃ e, (NewIAMTokenManager oauthToken httpClient).1 = (none, some e) ∧
        e.isAuthenticationError = true) ↔ oauthToken = "") ∧
    ((∃ e, (NewClient oauthToken httpClient).1 = (none, some e) ∧
        e.isAuthenticationError = true) ↔ oauthToken = "") ∧
    (NewIAMTokenManager oauthToken httpClient).2 = [] ∧
    (NewClient oauthToken httpClient).2 = [] ∧
    (oauthToken ≠ "" →
      (∃ m, (NewIAMTokenManager oauthToken httpClient).1 = (some m, none) ∧
        m.oauthToken = oauthToken ∧ m.iamToken = "" ∧ m.iamTokenExpiry = 0 ∧
        ∀ now : Time, HasValidCachedToken m now = false) ∧
      (∃ c, (NewClient oauthToken httpClient).1 = (some c, none) ∧
        c.authManager.oauthToken = oauthToken ∧ c.authManager.iamToken = "" ∧
        c.authManager.iamTokenExpiry = 0 ∧
        ∀ now : Time, HasValidCachedToken c.authManager now = false)) := by
  by_cases h : oauthToken = ""
  · subst h
    simp [NewIAMTokenManager, NewClient, NewAuthenticationError, Error.isAuthenticationError]
  · simp [NewIAMTokenManager, NewClient, h, HasValidCachedToken]

theorem constructors_reject_exactly_empty_credential_witness :
    (∃ m, (NewIAMTokenManager "tok-123" none).1 = (some m, none) ∧
      m.oauthToken = "tok-123" ∧ m.iamToken = "" ∧ m.iamTokenExpiry = 0 ∧
      ∀ now : Time, HasValidCachedToken m now = false) ∧
    (NewIAMTokenManager "tok-123" none).1 = (some freshManager, none) ∧
    (NewClient "" none).1 =
      (none, some (NewAuthenticationError "OAuth token cannot be empty" none)) :=
  ⟨((constructors_reject_exactly_empty_credential "tok-123" none).2.2.2.2
      (by decide)).1, by decide, by decide⟩

/-- C10: for every manager and clock reading at which `GetValidIAMToken` needs a refresh
(its own test: the cached token is empty or the time is after the expiry), if the
exchange fails with error `e` the call returns the empty string together with exactly
`e`, also when a stale non-empty token is cached, which it keeps and does not return. -/
theorem GetValidIAMToken_surfaces_refresh_error (m : IAMTokenManager) (now : Time)
    (out : ExchangeOutcome) (t : Time) (e : Error)
    (hneed : (m.iamToken == "" || After now m.iamTokenExpiry) = true)
    (hfail : (GetIAMToken m out).1.2 = some e) :
    (GetValidIAMToken m now out t).ret = ("", some e) ∧
    (GetValidIAMToken m now out t).m = m ∧
    (m.iamToken ≠ "" → (GetValidIAMToken m now out t).ret.1 ≠ m.iamToken) := by
  have hn : m.iamToken = "" ∨ m.iamTokenExpiry < now := by
    simpa [After] using hneed
  have h := GetValidIAMToken_of_needsRefresh m now out t hn
  have hr := refreshIAMToken_error m out t e hfail
  rw [hr] at h
  have hret : (GetValidIAMToken m now out t).ret = ("", some e) := h.2.2
  refine ⟨hret, h.2.1, ?_⟩
  intro hne heq
  rw [hret] at heq
  exact hne heq.symm

theorem GetValidIAMToken_surfaces_refresh_error_witness :
    (GetValidIAMToken cachedManager 42900000000001 (.doFailed ⟨"connection refused"⟩)
      42900000000002).ret =
      ("", some (NewAuthenticationError "Failed to get IAM token"
        (some ⟨"connection refused"⟩))) ∧
    (GetValidIAMToken cachedManager 42900000000001 (.doFailed ⟨"connection refused"⟩)
      42900000000002).m.iamToken = "abc" :=
  have w := GetValidIAMToken_surfaces_refresh_error cachedManager 42900000000001
    (.doFailed ⟨"connection refused"⟩) 42900000000002
    (NewAuthenticationError "Failed to get IAM token" (some ⟨"connection refused"⟩))
    (by decide) (by decide)
  ⟨w.1, by rw [w.2.1]; decide⟩

/-- C8: for every response whose status is not 200 (so for every non-success status) and
every body, `GetIAMToken` fails with the `AuthenticationError` whose message is
`Failed to get IAM token (HTTP <status>): <msg>`, where `msg` is the top-level `message`
member when the body is a JSON object whose `message` is a string, and `Unknown error`
when the body is not valid JSON, is not an object, has no `message` member, or has one
that is not a string. For the body `{"message": s}` the error text is that message with
`s`, so it contains the status code and `s`; and `GetValidIAMToken` on an empty cache
returns that same error. -/
theorem GetIAMToken_non_ok_status_error (m : IAMTokenManager) (status : Int) (body : Body)
    (h : status ≠ 200) :
    ∃ msg : String,
      (GetIAMToken m (.response status body)).1 =
        ("", some (NewAuthenticationError
          ("Failed to get IAM token (HTTP " ++ toString status ++ "): " ++ msg) none)) ∧
      (∀ members s, body.json = .ok (.object members) →
        GoMap.index (some members) "message" = some (.string s) → msg = s) ∧
      (∀ c, body.json = .error c → msg = "Unknown error") ∧
      (∀ v, body.json = .ok v → (∀ members, v ≠ .object members) → msg = "Unknown error") ∧
      (∀ members, body.json = .ok (.object members) →
        (∀ kv ∈ members, kv.1 ≠ "message") → msg = "Unknown error") ∧
      (∀ members v, body.json = .ok (.object members) →
        GoMap.index (some members) "message" = some v → (∀ s, v ≠ .string s) →
        msg = "Unknown error") ∧
      (∀ s, body.json = .ok (.object [("message", .string s)]) →
        ∃ e, (GetIAMToken m (.response status body)).1 = ("", some e) ∧
          e.isAuthenticationError = true ∧
          e.errorText = "Failed to get IAM token (HTTP " ++ toString status ++ "): " ++ s ∧
          (∃ a b, e.errorText = a ++ s ++ b) ∧
          (∃ a b, e.errorText = a ++ toString status ++ b)) ∧
      (∀ (m0 : IAMTokenManager) (now t : Time), m0.iamToken = "" →
        (GetValidIAMToken m0 now (.response status body) t).ret =
          ("", some (NewAuthenticationError
            ("Failed to get IAM token (HTTP " ++ toString status ++ "): " ++ msg) none))) := by
  refine ⟨_, GetIAMToken_non_ok m status body h, ?_, ?_, ?_, ?_, ?_, ?_, ?_⟩
  · intro members s hj hi
    simp only [unmarshalMap, hj, hi]
  · intro c hj
    simp [unmarshalMap, hj, GoMap.index]
  · intro v hj hv
    cases v with
    | object members => exact absurd rfl (hv members)
    | _ => simp [unmarshalMap, hj, GoMap.index]
  · intro members hj hk
    have hnone : GoMap.index (some members) "message" = none := by
      simp only [GoMap.index, Option.map_eq_none', List.find?_eq_none, List.mem_reverse]
      intro kv hkv
      simpa using hk kv hkv
    simp only [unmarshalMap, hj, hnone]
  · intro members v hj hi hv
    simp only [unmarshalMap, hj, hi]
    cases v with
    | string s => exact absurd rfl (hv s)
    | _ => rfl
  · intro s hj
    have hi : GoMap.index (some [("message", JSONValue.string s)]) "message"
        = some (.string s) := by
      simp [GoMap.index]
    refine ⟨_, GetIAMToken_non_ok m status body h, rfl, ?_, ?_, ?_⟩
    · simp only [unmarshalMap, hj, hi]
      rfl
    · refine ⟨"Failed to get IAM token (HTTP " ++ toString status ++ "): ", "", ?_⟩
      simp only [unmarshalMap, hj, hi]
      simp [Error.errorText, Error.base, NewAuthenticationError, YandexCloudError.Error]
    · refine ⟨"Failed to get IAM token (HTTP ", "): " ++ s, ?_⟩
      simp only [unmarshalMap, hj, hi]
      simp [Error.errorText, Error.base, NewAuthenticationError, YandexCloudError.Error,
        String.append_assoc]
  · intro m0 now t h0
    have hg := GetValidIAMToken_of_needsRefresh m0 now (.response status body) t (Or.inl h0)
    have hf := congrArg Prod.snd (GetIAMToken_non_ok m0 status body h)
    rw [refreshIAMToken_error m0 _ t _ hf] at hg
    exact hg.2.2

theorem GetIAMToken_non_ok_status_error_witness :
    (401 : Int) ≠ 200 ∧
    (GetIAMToken freshManager (.response 401 messageBody)).1 =
      ("", some (NewAuthenticationError
        "Failed to get IAM token (HTTP 401): invalid credential" none)) ∧
    (GetValidIAMToken freshManager 0 (.response 401 messageBody) 0).ret =
      ("", some (NewAuthenticationError
        "Failed to get IAM token (HTTP 401): invalid credential" none)) := by
  obtain ⟨msg, h1, h2, -, -, -, -, -, h8⟩ :=
    GetIAMToken_non_ok_status_error freshManager 401 messageBody (by decide)
  have hm : msg = "invalid credential" := h2 _ _ rfl rfl
  subst hm
  exact ⟨by decide, h1, h8 freshManager 0 0 rfl⟩

/-- C9, the claim as written: the body `{"IAMTOKEN":"x"}` has no member named `iamToken`,
yet with status 200 `GetIAMToken` returns `x` and a nil error; and the body
`{"iamToken":"abc","IAMTOKEN":5}` has one member named `iamToken`, the non-empty string
`abc`, yet `GetIAMToken` fails. -/
theorem GetIAMToken_matches_keys_up_to_case :
    ((GetIAMToken freshManager (.response 200 upperKeyBody)).1 = ("x", none) ∧
      ∃ members, upperKeyBody.json = .ok (.object members) ∧
        ∀ kv ∈ members, kv.1 ≠ "iamToken") ∧
    ((GetIAMToken freshManager (.response 200 mixedKeysBody)).1.2 ≠ none ∧
      ∃ rest, mixedKeysBody.json = .ok (.object (("iamToken", .string "abc") :: rest)) ∧
        ∀ kv ∈ rest, kv.1 ≠ "iamToken") := by
  refine ⟨⟨by decide, _, rfl, by decide⟩, by decide, _, rfl, by decide⟩

/-- C9, amended: for every response with status 200, `GetIAMToken` returns `(v, nil)`
exactly when `v` is non-empty and the body is a JSON object in which every member whose
key is `iamToken` up to letter case holds a string or `null` and the last of them that
holds a string holds `v`; in every other case (invalid JSON, not an object, a value of a
wrong type, no such string, the empty string) it fails with an `AuthenticationError`;
it never returns an empty token with a nil error; and the body `{"iamToken": v}` with a
non-empty `v` gives `(v, nil)`. -/
theorem GetIAMToken_ok_status_result (m : IAMTokenManager) (body : Body) :
    (∀ v : String, (GetIAMToken m (.response 200 body)).1 = (v, none) ↔
      (v ≠ "" ∧ ∃ members, body.json = .ok (.object members) ∧
        (∀ u ∈ tokenValues members, u.isStringOrNull = true) ∧
        lastTokenString members = some v)) ∧
    ((∃ v, (GetIAMToken m (.response 200 body)).1 = (v, none)) ∨
      (∃ e, (GetIAMToken m (.response 200 body)).1 = ("", some e) ∧
        e.isAuthenticationError = true)) ∧
    (GetIAMToken m (.response 200 body)).1 ≠ ("", none) ∧
    (∀ v : String, v ≠ "" → body.json = .ok (.object [("iamToken", .string v)]) →
      (GetIAMToken m (.response 200 body)).1 = (v, none)) := by
  have hiff : ∀ v : String, (GetIAMToken m (.response 200 body)).1 = (v, none) ↔
      (v ≠ "" ∧ ∃ members, body.json = .ok (.object members) ∧
        (∀ u ∈ tokenValues members, u.isStringOrNull = true) ∧
        lastTokenString members = some v) := by
    intro v
    constructor
    · intro h
      refine ⟨GetIAMToken_ok_ne_empty m _ v h, ?_⟩
      simp only [GetIAMToken, StatusOK, ne_eq, not_true_eq_false, if_false] at h
      cases hj : body.json with
      | error c => simp [unmarshalResponseData, hj] at h
      | ok doc =>
        cases doc with
        | object members =>
          refine ⟨members, rfl, ?_⟩
          have h1 := decodeMembers_fst members "" none
          have h2 := decodeMembers_snd members "" none
          simp only [unmarshalResponseData, hj] at h
          split at h
          · simp at h
          · rename_i tok heq
            rw [heq] at h1 h2
            simp only [true_and] at h2
            refine ⟨h2.1 trivial, ?_⟩
            split at h
            · simp at h
            · rename_i hne
              simp only [Prod.mk.injEq, and_true] at h
              subst h
              cases hl : lastTokenString members with
              | none =>
                rw [hl] at h1
                exact absurd h1 hne
              | some w =>
                rw [hl] at h1
                simp only [Option.getD_some] at h1
                rw [h1]
        | _ => simp [unmarshalResponseData, hj] at h
    · rintro ⟨hne, members, hj, hclean, hlast⟩
      have h1 := decodeMembers_fst members "" none
      have h2 := (decodeMembers_snd members "" none).2 ⟨rfl, hclean⟩
      rw [hlast] at h1
      simp only [Option.getD_some] at h1
      have hd : decodeMembers members ("", none) = (v, none) := Prod.ext h1 h2
      simp [GetIAMToken, StatusOK, unmarshalResponseData, hj, hd, hne]
  have hne : (GetIAMToken m (.response 200 body)).1 ≠ ("", none) := by
    intro h
    exact GetIAMToken_ok_ne_empty m _ "" h rfl
  refine ⟨hiff, ?_, hne, ?_⟩
  · simp only [GetIAMToken, StatusOK, ne_eq, not_true_eq_false, if_false]
    split
    · exact Or.inr ⟨_, rfl, rfl⟩
    · split
      · exact Or.inr ⟨_, rfl, rfl⟩
      · exact Or.inl ⟨_, rfl⟩
  · intro v hv hj
    refine (hiff v).2 ⟨hv, _, hj, ?_, ?_⟩
    · have ht : tokenValues [("iamToken", JSONValue.string v)] = [JSONValue.string v] := by
        simp [tokenValues, matchesField]
      rw [ht]
      simp [JSONValue.isStringOrNull]
    · simp [lastTokenString, tokenValues, matchesField, JSONValue.asString]

/-- C13, the code on the two paths without a caller-supplied client:
`NewIAMTokenManager "tok-123" nil` gives the manager a client with a 30 second timeout,
but `NewClient "tok-123" nil` builds `&http.Client{}` first and hands it on as a non-nil
client, so its manager exchanges through a client whose timeout is zero (no timeout). -/
theorem NewClient_nil_client_manager_timeout_zero :
    (∃ m, (NewIAMTokenManager "tok-123" none).1 = (some m, none) ∧
      m.httpClient.Timeout = 30 * Second) ∧
    (∃ c, (NewClient "tok-123" none).1 = (some c, none) ∧
      c.authManager.httpClient.Timeout = 0 ∧
      c.authManager.httpClient.Timeout ≠ 30 * Second) := by
  refine ⟨⟨freshManager, by decide, by decide⟩,
    ⟨{ httpClient := ⟨0⟩, authManager := { freshManager with httpClient := ⟨0⟩ } },
      by decide, by decide, by decide⟩⟩

/-- C14: in every run of `GetValidIAMToken` and of `refreshIAMToken`, replayed as a
sequence of lock, unlock, exchange and request steps from a caller holding no lock, the
caller holds neither the read lock nor the write lock at the step where the exchanger is
called or the request is sent, releases only locks it holds, and holds no lock when the
operation returns, on the success path and on the error path alike. -/
theorem token_operations_lock_discipline (m : IAMTokenManager) (now : Time)
    (out : ExchangeOutcome) (t : Time) :
    lockDiscipline (refreshIAMToken m out t).trace 0 0 = true ∧
    lockDiscipline (GetValidIAMToken m now out t).trace 0 0 = true := by
  have hr : lockDiscipline (refreshIAMToken m out t).trace 0 0 = true := by
    rw [refreshIAMToken_trace]
    rcases GetIAMToken_trace_cases m out with h | h <;> rw [h] <;>
      cases (GetIAMToken m out).1.2 <;> simp [lockDiscipline]
  refine ⟨hr, ?_⟩
  by_cases hn : (m.iamToken == "" || After now m.iamTokenExpiry) = true
  · simp only [GetValidIAMToken, hn, if_true]
    cases hc : (GetIAMToken m out).1.2 with
    | some e =>
      rw [refreshIAMToken_error m out t e hc]
      rcases GetIAMToken_trace_cases m out with h | h <;> rw [h] <;> simp [lockDiscipline]
    | none =>
      rw [refreshIAMToken_ok m out t hc]
      rcases GetIAMToken_trace_cases m out with h | h <;> rw [h] <;> simp [lockDiscipline]
  · simp only [GetValidIAMToken, hn]
    simp [lockDiscipline]

/-- C15: for a manager just built by `NewIAMTokenManager` (empty cache), every token `x`
returned by the exchange and every time `t` at which the refresh stores it:
`GetValidIAMToken` returns `x` with a nil error, and afterwards `HasValidCachedToken` is
true at every time `t'` with `t ≤ t' < t + 11h55m`, so at `t` itself, and false at every
time `t' ≥ t + 11h55m`. -/
theorem first_call_fills_cache (oauthToken : String) (httpClient : Option HTTPClient)
    (m : IAMTokenManager) (now : Time) (out : ExchangeOutcome) (t : Time) (x : String)
    (hm : (NewIAMTokenManager oauthToken httpClient).1 = (some m, none))
    (hx : (GetIAMToken m out).1 = (x, none)) :
    (GetValidIAMToken m now out t).ret = (x, none) ∧
    (∀ t1 : Time, t ≤ t1 → t1 < t + (11 * Hour + 55 * Minute) →
      HasValidCachedToken (GetValidIAMToken m now out t).m t1 = true) ∧
    HasValidCachedToken (GetValidIAMToken m now out t).m t = true ∧
    (∀ t1 : Time, t + (11 * Hour + 55 * Minute) ≤ t1 →
      HasValidCachedToken (GetValidIAMToken m now out t).m t1 = false) := by
  have hempty : m.iamToken = "" := (NewIAMTokenManager_some _ _ m hm).2.2.1
  have hne : x ≠ "" := GetIAMToken_ok_ne_empty m out x hx
  have h2 : (GetIAMToken m out).1.2 = none := by rw [hx]
  have h1 : (GetIAMToken m out).1.1 = x := by rw [hx]
  have hg := GetValidIAMToken_of_needsRefresh m now out t (Or.inl hempty)
  have hmm : (GetValidIAMToken m now out t).m =
      { m with iamToken := x, iamTokenExpiry := t + (11 * Hour + 55 * Minute) } := by
    rw [hg.2.1, refreshIAMToken_ok m out t h2, h1]
    simp only [Add, tokenLifetime, tokenRefreshMargin, Hour, Minute, Second]
    congr 1
  have hvalid : ∀ t1 : Time, HasValidCachedToken (GetValidIAMToken m now out t).m t1 = true ↔
      t1 < t + (11 * Hour + 55 * Minute) := by
    intro t1
    rw [hmm]
    simp [HasValidCachedToken, Before, hne]
  refine ⟨?_, ?_, ?_, ?_⟩
  · rw [hg.2.2, refreshIAMToken_ok m out t h2, h1]
  · intro t1 _ h
    exact (hvalid t1).2 h
  · exact (hvalid t).2 (lt_add_of_pos_right t (by decide))
  · intro t1 h
    rw [Bool.eq_false_iff, Ne, hvalid]
    exact not_lt.2 h

theorem first_call_fills_cache_witness :
    (GetValidIAMToken freshManager 5 (.response 200 tokenBody) 7).ret = ("abc", none) ∧
    HasValidCachedToken (GetValidIAMToken freshManager 5 (.response 200 tokenBody) 7).m 7
      = true :=
  have w := first_call_fills_cache "tok-123" none freshManager 5 (.response 200 tokenBody) 7
    "abc" (by decide) (by decide)
  ⟨w.1, w.2.2.1⟩

/-- C16, the claim as written: a token issued at `t0 = 0` and stored by a refresh that
completes six minutes later gets the expiry 12h01m, which is not before `t0 + 12h`; at
`t0 + 12h`, when the service rejects the token, `HasValidCachedToken` is still true and
`GetValidIAMToken` serves the token without calling the exchanger. -/
theorem late_store_outlives_remote_lifetime :
    (0 : Time) ≤ 6 * Minute ∧
    ¬ ((refreshIAMToken freshManager (.response 200 tokenBody) (6 * Minute)).m.iamTokenExpiry
        < 0 + tokenLifetime) ∧
    HasValidCachedToken (refreshIAMToken freshManager (.response 200 tokenBody) (6 * Minute)).m
      (0 + tokenLifetime) = true ∧
    exchanges (GetValidIAMToken
      (refreshIAMToken freshManager (.response 200 tokenBody) (6 * Minute)).m
      (0 + tokenLifetime) (.response 200 tokenBody) (0 + tokenLifetime)).trace = 0 ∧
    (GetValidIAMToken
      (refreshIAMToken freshManager (.response 200 tokenBody) (6 * Minute)).m
      (0 + tokenLifetime) (.response 200 tokenBody) (0 + tokenLifetime)).ret = ("abc", none) := by
  refine ⟨by decide, by decide, by decide, by decide, by decide⟩

/-- C16, amended: for every token issued by the remote service at time `t0` (rejected by
it from `t0 + 12h` on) and stored by a refresh that completes at a time `t` less than the
safety margin after the issue, `t < t0 + 5min`: the cached expiry is strictly earlier
than `t0 + 12h`, so at every time from `t0 + 12h` on `HasValidCachedToken` is false and
`GetValidIAMToken` calls the exchanger. -/
theorem expiry_before_remote_rejection (m : IAMTokenManager) (out : ExchangeOutcome)
    (t0 t : Time) (hok : (GetIAMToken m out).1.2 = none)
    (hlate : t < t0 + tokenRefreshMargin) :
    (refreshIAMToken m out t).m.iamTokenExpiry < t0 + tokenLifetime ∧
    (∀ now : Time, t0 + tokenLifetime ≤ now →
      HasValidCachedToken (refreshIAMToken m out t).m now = false ∧
      ∀ (out2 : ExchangeOutcome) (t2 : Time),
        exchanges (GetValidIAMToken (refreshIAMToken m out t).m now out2 t2).trace = 1) := by
  have hexp : (refreshIAMToken m out t).m.iamTokenExpiry < t0 + tokenLifetime := by
    rw [refreshIAMToken_ok m out t hok]
    show t + (tokenLifetime - tokenRefreshMargin) < t0 + tokenLifetime
    linarith
  refine ⟨hexp, ?_⟩
  intro now hnow
  have hlt : (refreshIAMToken m out t).m.iamTokenExpiry < now := lt_of_lt_of_le hexp hnow
  refine ⟨?_, ?_⟩
  · simp only [HasValidCachedToken, Before, Bool.and_eq_false_imp, bne_iff_ne, ne_eq,
      decide_eq_false_iff_not, not_lt]
    intro _
    exact le_of_lt hlt
  · intro out2 t2
    exact (GetValidIAMToken_of_needsRefresh _ now out2 t2 (Or.inr hlt)).1

theorem expiry_before_remote_rejection_witness :
    (refreshIAMToken freshManager (.response 200 tokenBody) (4 * Minute)).m.iamTokenExpiry
      < 0 + tokenLifetime ∧
    HasValidCachedToken (refreshIAMToken freshManager (.response 200 tokenBody) (4 * Minute)).m
      (0 + tokenLifetime) = false :=
  have w := expiry_before_remote_rejection freshManager (.response 200 tokenBody) 0
    (4 * Minute) (by decide) (by decide)
  ⟨w.1, (w.2 (0 + tokenLifetime) (le_refl _)).1⟩

/-- C18: for every manager (so for every one reachable from construction through
`GetValidIAMToken`, `ClearCache` and `HasValidCachedToken`), every clock reading and
every exchange outcome, when `GetValidIAMToken` returns a nil error the token it returns
is non-empty, whether it was served from the cache or freshly exchanged. -/
theorem GetValidIAMToken_nil_error_token_nonempty (m : IAMTokenManager) (now : Time)
    (out : ExchangeOutcome) (t : Time) (x : String)
    (h : (GetValidIAMToken m now out t).ret = (x, none)) : x ≠ "" := by
  by_cases hn : m.iamToken = "" ∨ m.iamTokenExpiry < now
  · have hg := (GetValidIAMToken_of_needsRefresh m now out t hn).2.2
    rw [hg] at h
    cases hc : (GetIAMToken m out).1.2 with
    | some e =>
      rw [refreshIAMToken_error m out t e hc] at h
      simp at h
    | none =>
      rw [refreshIAMToken_ok m out t hc] at h
      simp only [Prod.mk.injEq, and_true] at h
      exact GetIAMToken_ok_ne_empty m out x (Prod.ext h hc)
  · push_neg at hn
    rw [GetValidIAMToken_of_not_needsRefresh m now out t hn.1 hn.2] at h
    simp only [Prod.mk.injEq, and_true] at h
    exact h ▸ hn.1

theorem GetValidIAMToken_nil_error_token_nonempty_witness :
    (GetValidIAMToken cachedManager 100 (.doFailed ⟨"timeout"⟩) 100).ret = ("abc", none) ∧
    ("abc" : String) ≠ "" :=
  ⟨by decide, GetValidIAMToken_nil_error_token_nonempty cachedManager 100
    (.doFailed ⟨"timeout"⟩) 100 "abc" (by decide)⟩

/-- C11, the claim as written: the status 304 is outside 200..299, yet for the response
`304 Not Modified` with its empty body `parseResponse` returns an empty map and a nil
error, and so does `MakeRequest`. -/
theorem parseResponse_accepts_status_304 :
    ¬ ((200 : Int) ≤ notModified.StatusCode ∧ notModified.StatusCode ≤ 299) ∧
    parseResponse notModified = (some [], none) ∧
    (MakeRequest cachedResource "GET" "iam/v1/apiKeys/k1" none
      (callAt100 (.ok notModified))).ret = (some [], none) := by
  refine ⟨by decide, rfl, ?_⟩
  rw [MakeRequest_sent cachedResource "GET" "iam/v1/apiKeys/k1" none
    (callAt100 (.ok notModified)) "abc" (by decide) (by simp) rfl]
  rfl

/-- C11, amended: for every response whose status code is 400 or more and every body,
`parseResponse` returns no data and an `APIError` whose `StatusCode` is the response
status and whose message is `API request failed with status <status>: <raw body>`, so it
contains the raw body; and `MakeRequest` returns that same pair whenever it gets such a
response to the request it sends. -/
theorem parseResponse_status_400_and_up (status : Int) (body : Body) (h : 400 ≤ status) :
    ∃ e : Error,
      parseResponse { StatusCode := status, ReadAll := .ok body } = (none, some e) ∧
      e.isAPIError = true ∧
      e.StatusCode? = some status ∧
      e.base.Message =
        "API request failed with status " ++ toString status ++ ": " ++ body.raw ∧
      (∃ a b, e.base.Message = a ++ body.raw ++ b) ∧
      (∀ (r : AbstractResource) (method uri : String) (reqBody : Option Payload)
        (env : CallEnv) (tok : String),
        (GetValidIAMToken r.authManager env.now env.exchange env.storeTime).ret
          = (tok, none) →
        (∀ err, reqBody ≠ some (.error err)) → env.newRequest = none →
        env.send = .ok { StatusCode := status, ReadAll := .ok body } →
        (MakeRequest r method uri reqBody env).ret = (none, some e)) := by
  refine ⟨_, parseResponse_client_or_server_error status body h, rfl, rfl, rfl,
    ⟨"API request failed with status " ++ toString status ++ ": ", "", ?_⟩, ?_⟩
  · simp [NewAPIError, Error.base]
  · intro r method uri reqBody env tok htok hbody hreq hsend
    rw [MakeRequest_sent r method uri reqBody env tok htok hbody hreq, hsend]
    exact parseResponse_client_or_server_error status body h

theorem parseResponse_status_400_and_up_witness :
    parseResponse notFound =
      (none, some (NewAPIError "API request failed with status 404: not found" 404 none)) ∧
    (MakeRequest cachedResource "GET" "iam/v1/apiKeys/k1" none
      (callAt100 (.ok notFound))).ret =
      (none, some (NewAPIError "API request failed with status 404: not found" 404 none)) := by
  obtain ⟨e, h1, -, -, -, -, h6⟩ :=
    parseResponse_status_400_and_up 404 { raw := "not found", json := .error ⟨"invalid character"⟩ }
      (by decide)
  have h2 := h6 cachedResource "GET" "iam/v1/apiKeys/k1" none (callAt100 (.ok notFound)) "abc"
    (by decide) (by simp) rfl rfl
  have he : parseResponse notFound =
      (none, some (NewAPIError "API request failed with status 404: not found" 404 none)) :=
    parseResponse_client_or_server_error 404 _ (by decide)
  have h3 : parseResponse notFound = (none, some e) := h1
  rw [he] at h3
  rw [h2, ← h3]
  exact ⟨he, rfl⟩

/-- C17: for every method, relative path and body given to `MakeRequest`: if
`GetValidIAMToken` fails with error `e`, `MakeRequest` returns no data and exactly `e`
and adds no event, so no request, to those of `GetValidIAMToken`; otherwise, with `tok`
the token returned, it adds at most one request: none when the body does not marshal or
the request cannot be built (an `APIError` with status 0 is returned), and else the one
request to `baseURI + path` with the given method whose headers are `Content-Type`,
`Accept` and `Authorization = "Bearer " + tok`, in which the OAuth credential has no
part. -/
theorem MakeRequest_bearer_token (r : AbstractResource) (method uri : String)
    (body : Option Payload) (env : CallEnv) :
    (∀ e : Error,
      (GetValidIAMToken r.authManager env.now env.exchange env.storeTime).ret.2 = some e →
      (MakeRequest r method uri body env).ret = (none, some e) ∧
      (MakeRequest r method uri body env).trace =
        (GetValidIAMToken r.authManager env.now env.exchange env.storeTime).trace) ∧
    (∀ tok : String,
      (GetValidIAMToken r.authManager env.now env.exchange env.storeTime).ret = (tok, none) →
      (((∃ err, body = some (.error err)) ∨ env.newRequest ≠ none) →
        (MakeRequest r method uri body env).trace =
          (GetValidIAMToken r.authManager env.now env.exchange env.storeTime).trace ∧
        ∃ e, (MakeRequest r method uri body env).ret = (none, some e) ∧
          e.isAPIError = true ∧ e.StatusCode? = some 0) ∧
      ((∀ err, body ≠ some (.error err)) → env.newRequest = none →
        ∃ req : Request,
          (MakeRequest r method uri body env).trace =
            (GetValidIAMToken r.authManager env.now env.exchange env.storeTime).trace ++
              [.HTTPDo req] ∧
          req.method = method ∧
          req.url = r.baseURI ++ uri ∧
          req.headers = [("Content-Type", "application/json"),
            ("Accept", "application/json"), ("Authorization", "Bearer " ++ tok)] ∧
          req.headers.lookup "Authorization" = some ("Bearer " ++ tok))) := by
  refine ⟨?_, ?_⟩
  · intro e he
    rw [MakeRequest_token_error r method uri body env e he]
    exact ⟨rfl, rfl⟩
  · intro tok htok
    refine ⟨MakeRequest_not_sent r method uri body env tok htok, ?_⟩
    intro hbody hreq
    rw [MakeRequest_sent r method uri body env tok htok hbody hreq]
    refine ⟨_, rfl, rfl, rfl, rfl, ?_⟩
    simp [apiRequest, List.lookup]

theorem MakeRequest_bearer_token_witness :
    ∃ req : Request,
      (MakeRequest cachedResource "GET" "iam/v1/apiKeys/k1" none
        (callAt100 (.ok notFound))).trace =
        (GetValidIAMToken cachedManager 100 (.doFailed ⟨"unused"⟩) 100).trace ++
          [.HTTPDo req] ∧
      req.url = "https://iam.api.cloud.yandex.net/iam/v1/apiKeys/k1" ∧
      req.headers.lookup "Authorization" = some "Bearer abc" := by
  obtain ⟨req, h1, -, h3, -, h5⟩ :=
    ((MakeRequest_bearer_token cachedResource "GET" "iam/v1/apiKeys/k1" none
      (callAt100 (.ok notFound))).2 "abc" (by decide)).2 (by simp) rfl
  exact ⟨req, h1, h3, h5⟩

/-- C19: for every parameter map (entries with distinct keys, in whatever order the loop
visits them), `BuildQueryString` returns the empty string if and only if no entry holds
a non-nil value; otherwise it returns `?` followed by exactly one escaped `key=value`
piece per non-nil entry, joined by `&` in strictly ascending key order; and the result
is the same for every order in which the entries are visited. -/
theorem BuildQueryString_sorted_pairs (params : List (String × Option ParamValue)) :
    (BuildQueryString params = "" ↔ ∀ kv ∈ params, kv.2 = none) ∧
    ((params.map Prod.fst).Nodup → (∃ kv ∈ params, kv.2 ≠ none) →
      ∃ pairs : List (String × String),
        pairs.Perm (nonNilEntries params) ∧
        pairs.Pairwise (fun a b => a.1 < b.1) ∧
        BuildQueryString params = "?" ++ "&".intercalate (pairs.map encodePair)) ∧
    (∀ params2 : List (String × Option ParamValue),
      (params.map Prod.fst).Nodup → params.Perm params2 →
      BuildQueryString params2 = BuildQueryString params) := by
  have hnil : nonNilEntries params = [] ↔ ∀ kv ∈ params, kv.2 = none := by
    simp only [nonNilEntries, List.filterMap_eq_nil_iff, Option.map_eq_none']
  refine ⟨?_, ?_, ?_⟩
  · rw [BuildQueryString_eq, ← hnil]
    by_cases h : nonNilEntries params = []
    · simp [h]
    · simp only [h, if_false, iff_false]
      exact question_mark_append_ne_empty _
  · intro hnd hex
    have hne : nonNilEntries params ≠ [] := by
      rw [Ne, hnil]
      push_neg
      exact hex
    have hnd2 : ((nonNilEntries params).map Prod.fst).Nodup :=
      (nonNilEntries_keys_sublist params).nodup hnd
    refine ⟨(nonNilEntries params).insertionSort keyLE, List.perm_insertionSort _ _,
      insertionSort_strictly_ascending _ hnd2, ?_⟩
    rw [BuildQueryString_eq, if_neg hne]
  · intro params2 hnd hperm
    have hp : (nonNilEntries params2).Perm (nonNilEntries params) :=
      (hperm.filterMap _).symm
    have hnd1 : ((nonNilEntries params).map Prod.fst).Nodup :=
      (nonNilEntries_keys_sublist params).nodup hnd
    have hnd2 : ((nonNilEntries params2).map Prod.fst).Nodup :=
      (hp.map Prod.fst).nodup_iff.2 hnd1
    have hsort : (nonNilEntries params2).insertionSort keyLE =
        (nonNilEntries params).insertionSort keyLE :=
      strictly_ascending_unique _ _
        (((List.perm_insertionSort keyLE _).trans hp).trans
          (List.perm_insertionSort keyLE _).symm)
        (insertionSort_strictly_ascending _ hnd2)
        (insertionSort_strictly_ascending _ hnd1)
    have hempty : nonNilEntries params2 = [] ↔ nonNilEntries params = [] :=
      ⟨fun h => List.Perm.eq_nil (h ▸ hp.symm), fun h => List.Perm.eq_nil (h ▸ hp)⟩
    rw [BuildQueryString_eq, BuildQueryString_eq, hsort]
    by_cases h : nonNilEntries params = []
    · rw [if_pos h, if_pos (hempty.2 h)]
    · rw [if_neg h, if_neg (fun h2 => h (hempty.1 h2))]

theorem BuildQueryString_sorted_pairs_witness :
    BuildQueryString
      [("pageSize", some (.int 10)), ("cloudId", some (.str "b1 g")), ("pageToken", none)]
      = "?cloudId=b1+g&pageSize=10" ∧
    BuildQueryString
      [("pageToken", none), ("cloudId", some (.str "b1 g")), ("pageSize", some (.int 10))]
      = BuildQueryString
      [("pageSize", some (.int 10)), ("cloudId", some (.str "b1 g")), ("pageToken", none)] :=
  ⟨by decide,
   (BuildQueryString_sorted_pairs
      [("pageSize", some (.int 10)), ("cloudId", some (.str "b1 g")), ("pageToken", none)]).2.2
      [("pageToken", none), ("cloudId", some (.str "b1 g")), ("pageSize", some (.int 10))]
      (by decide) (by decide)⟩

/-- C12, the code on the three list operations that take a required identifier: called
with the empty string, `FolderResource.List`, `ServiceAccountResource.List` and
`APIKeyResource.List` return no `ValidationError`; each reads the token under the lock
and sends the request with the empty identifier in the query (here answered by `200`
with `{}`, so an empty map and a nil error come back), whereas `FolderResource.Get`
with the empty string returns the `ValidationError` and does nothing. -/
theorem list_operations_accept_empty_identifier :
    ((FolderResource.List folderResource "" none none (callAt100 (.ok emptyObject))).ret
        = (some [], none) ∧
      (FolderResource.List folderResource "" none none (callAt100 (.ok emptyObject))).trace
        = [.RLock, .RUnlock, .RLock, .RUnlock,
           .HTTPDo (apiRequest "https://resource-manager.api.cloud.yandex.net/" "GET"
             "resource-manager/v1/folders?cloudId=" none "abc")]) ∧
    ((ServiceAccountResource.List cachedResource "" none none
        (callAt100 (.ok emptyObject))).ret = (some [], none) ∧
      (ServiceAccountResource.List cachedResource "" none none
        (callAt100 (.ok emptyObject))).trace
        = [.RLock, .RUnlock, .RLock, .RUnlock,
           .HTTPDo (apiRequest "https://iam.api.cloud.yandex.net/" "GET"
             "iam/v1/serviceAccounts?folderId=" none "abc")]) ∧
    ((APIKeyResource.List cachedResource "" none none (callAt100 (.ok emptyObject))).ret
        = (some [], none) ∧
      (APIKeyResource.List cachedResource "" none none (callAt100 (.ok emptyObject))).trace
        = [.RLock, .RUnlock, .RLock, .RUnlock,
           .HTTPDo (apiRequest "https://iam.api.cloud.yandex.net/" "GET"
             "iam/v1/apiKeys?serviceAccountId=" none "abc")]) ∧
    ((FolderResource.Get folderResource "" (callAt100 (.ok emptyObject))).ret
        = (none, some (NewValidationError "Folder ID cannot be empty")) ∧
      (FolderResource.Get folderResource "" (callAt100 (.ok emptyObject))).trace = []) := by
  have hq1 : BuildQueryString [("cloudId", some (.str ""))] = "?cloudId=" := by decide
  have hq2 : BuildQueryString [("folderId", some (.str ""))] = "?folderId=" := by decide
  have hq3 : BuildQueryString [("serviceAccountId", some (.str ""))]
      = "?serviceAccountId=" := by decide
  have hg1 : (GetValidIAMToken folderResource.authManager (callAt100 (.ok emptyObject)).now
      (callAt100 (.ok emptyObject)).exchange (callAt100 (.ok emptyObject)).storeTime)
      = { ret := ("abc", none), m := cachedManager
          trace := [.RLock, .RUnlock, .RLock, .RUnlock] } :=
    GetValidIAMToken_of_not_needsRefresh cachedManager 100 _ 100 (by decide) (by decide)
  have hg2 : (GetValidIAMToken cachedResource.authManager (callAt100 (.ok emptyObject)).now
      (callAt100 (.ok emptyObject)).exchange (callAt100 (.ok emptyObject)).storeTime)
      = { ret := ("abc", none), m := cachedManager
          trace := [.RLock, .RUnlock, .RLock, .RUnlock] } :=
    GetValidIAMToken_of_not_needsRefresh cachedManager 100 _ 100 (by decide) (by decide)
  have hp : parseResponse emptyObject = (some [], none) := rfl
  refine ⟨?_, ?_, ?_, rfl, rfl⟩
  · simp only [FolderResource.List, pageParams, List.append_nil, hq1]
    rw [MakeRequest_sent folderResource "GET" _ none (callAt100 (.ok emptyObject)) "abc"
      (by rw [hg1]) (by simp) rfl, hg1]
    exact ⟨hp, rfl⟩
  · simp only [ServiceAccountResource.List, pageParams, List.append_nil, hq2]
    rw [MakeRequest_sent cachedResource "GET" _ none (callAt100 (.ok emptyObject)) "abc"
      (by rw [hg2]) (by simp) rfl, hg2]
    exact ⟨hp, rfl⟩
  · simp only [APIKeyResource.List, pageParams, List.append_nil, hq3]
    rw [MakeRequest_sent cachedResource "GET" _ none (callAt100 (.ok emptyObject)) "abc"
      (by rw [hg2]) (by simp) rfl, hg2]
    exact ⟨hp, rfl⟩

/-- C20, the code on a login with a reserved character: for the login `a&b`,
`GetByLogin` passes the path ending in `?login=a&b` to `MakeRequest`, the login
unescaped, while `BuildQueryString` for the map with `login` set to `a&b` gives
`?login=a%26b`; the two paths differ, and the request sent carries the unescaped one. -/
theorem GetByLogin_leaves_login_unescaped :
    (∀ (r : AbstractResource) (env : CallEnv),
      YandexPassportUserAccountResource.GetByLogin r "a&b" env =
        MakeRequest r "GET" "iam/v1/yandexPassportUserAccounts:byLogin?login=a&b" none env) ∧
    "iam/v1/yandexPassportUserAccounts:byLogin" ++
        BuildQueryString [("login", some (.str "a&b"))] =
      "iam/v1/yandexPassportUserAccounts:byLogin?login=a%26b" ∧
    ("iam/v1/yandexPassportUserAccounts:byLogin?login=a&b" : String) ≠
      "iam/v1/yandexPassportUserAccounts:byLogin" ++
        BuildQueryString [("login", some (.str "a&b"))] ∧
    (YandexPassportUserAccountResource.GetByLogin cachedResource "a&b"
        (callAt100 (.ok emptyObject))).trace =
      [.RLock, .RUnlock, .RLock, .RUnlock,
       .HTTPDo (apiRequest "https://iam.api.cloud.yandex.net/" "GET"
         "iam/v1/yandexPassportUserAccounts:byLogin?login=a&b" none "abc")] := by
  have hg : (GetValidIAMToken cachedResource.authManager (callAt100 (.ok emptyObject)).now
      (callAt100 (.ok emptyObject)).exchange (callAt100 (.ok emptyObject)).storeTime)
      = { ret := ("abc", none), m := cachedManager
          trace := [.RLock, .RUnlock, .RLock, .RUnlock] } :=
    GetValidIAMToken_of_not_needsRefresh cachedManager 100 _ 100 (by decide) (by decide)
  have hdef : ∀ (r : AbstractResource) (env : CallEnv),
      YandexPassportUserAccountResource.GetByLogin r "a&b" env =
        MakeRequest r "GET" "iam/v1/yandexPassportUserAccounts:byLogin?login=a&b" none env :=
    fun _ _ => rfl
  refine ⟨hdef, by decide, by decide, ?_⟩
  rw [hdef, MakeRequest_sent cachedResource "GET" _ none (callAt100 (.ok emptyObject)) "abc"
    (by rw [hg]) (by simp) rfl, hg]
  rfl

end YandexCloud
